import Mathlib

/-!
Verification development for the chwazam battle core: the deterministic
battle simulator (runHeadlessSim), the seed-search oracle
(findWinningScenario), the live battle loop (Game.update / startBattle),
the combatant model (Tower), the projectile model (Bullet) and the
seeded PRNG (createPRNG).

Modelling conventions:
* JavaScript double arithmetic is idealised as exact rational arithmetic
  over ℚ.  The transcendental library functions Math.cos, Math.sin,
  Math.atan2 and Math.sqrt are abstracted as an explicit parameter record
  MathOps: every theorem below quantifies over an arbitrary interpretation,
  which is sound because the JS engine evaluates them as fixed deterministic
  functions.  Math.PI is embedded as its exact binary64 value.
* The mulberry32 generator is pure 32-bit integer arithmetic and is
  embedded exactly: the generator state is the 32-bit pattern (a Nat below
  2^32) and every JS coercion (| 0, >>> k, Math.imul, ^) is modelled with
  explicit mod 2^32 arithmetic.  The division by 4294967296 is exact in
  binary64, so the produced floats are exact rationals.
* The unseeded Math.random stream (used only for the cosmetic hit-shake
  offsets inside Tower.update and for the pre-battle winner pick) is
  modelled as an explicit oracle noise : ℕ → ℚ together with a cursor
  that advances once per draw.
* Mutable JS objects become immutable records threaded through explicit
  state passing; array iteration order is preserved exactly, including the
  backwards bullets loop with in-loop splice.
-/

namespace Chwazam

/-- Abstract interpretation of the transcendental JS math functions used by
the battle core.  atan2 takes y before x, as Math.atan2 does. -/
structure MathOps where
  cos : ℚ → ℚ
  sin : ℚ → ℚ
  atan2 : ℚ → ℚ → ℚ
  sqrt : ℚ → ℚ

/-- Exact binary64 value of Math.PI. -/
def piQ : ℚ := 884279719003555 / 281474976710656

/-- Embedding of utils.ts dist (Math.sqrt of the squared distance). -/
def dist (ops : MathOps) (x1 y1 x2 y2 : ℚ) : ℚ :=
  ops.sqrt ((x2 - x1) * (x2 - x1) + (y2 - y1) * (y2 - y1))

/-- Embedding of utils.ts angleBetween (Math.atan2 of the difference). -/
def angleBetween (ops : MathOps) (x1 y1 x2 y2 : ℚ) : ℚ :=
  ops.atan2 (y2 - y1) (x2 - x1)

/-- Embedding of utils.ts easeOutBack (a cubic polynomial). -/
def easeOutBack (t : ℚ) : ℚ :=
  let c1 : ℚ := 170158 / 100000
  let c3 : ℚ := c1 + 1
  1 + c3 * (t - 1) ^ 3 + c1 * (t - 1) ^ 2

/-- Embedding of Math.sign as used by the guided-bullet steering code. -/
def jsSign (x : ℚ) : ℚ := if 0 < x then 1 else if x < 0 then -1 else 0

/-! ## Deterministic RNG (src/prng.ts, mulberry32)

The generator state is the 32-bit pattern of the JS signed-int32 variable
state; outputs are exact rationals t / 2^32 with t < 2^32. -/

/-- Bit pattern size of a JS 32-bit integer. -/
def U32 : ℕ := 4294967296

/-- JS ToInt32 of an arbitrary integer, represented by its unsigned 32-bit
pattern (seed | 0 in createPRNG). -/
def toPattern (s : ℤ) : ℕ := (s % (4294967296 : ℤ)).toNat

/-- JS Math.imul on 32-bit patterns: 32-bit wrapping product. -/
def imul32 (a b : ℕ) : ℕ := (a * b) % U32

/-- JS 32-bit wrapping addition on patterns (number addition of two int32
values followed by ToInt32, which is exact below 2^53). -/
def add32 (a b : ℕ) : ℕ := (a + b) % U32

/-- Embedding of one call to random() of createPRNG (src/prng.ts lines
10-16): advances the mulberry32 state and produces the float
((t ^ (t >>> 14)) >>> 0) / 4294967296, which is exact in binary64.
Returns the new state pattern and the output. -/
def mulberry32 (s : ℕ) : ℕ × ℚ :=
  let s1 := add32 s 0x6d2b79f5
  let t1 := imul32 (s1 ^^^ (s1 >>> 15)) (s1 ||| 1)
  let t2 := (add32 t1 (imul32 (t1 ^^^ (t1 >>> 7)) (t1 ||| 61))) ^^^ t1
  let out := t2 ^^^ (t2 >>> 14)
  (s1, (out : ℚ) / 4294967296)

/-- Embedding of createPRNG: the initial state pattern of the generator for
an integer seed (let state = seed | 0). -/
def createPRNG (seed : ℤ) : ℕ := toPattern seed

/-- Embedding of randomRange(min, max) = min + random() * (max - min). -/
def prngRange (s : ℕ) (lo hi : ℚ) : ℕ × ℚ :=
  let (s1, r) := mulberry32 s
  (s1, lo + r * (hi - lo))

/-- State pattern after n calls to random() on a generator created from the
given seed. -/
def prngStateAt (seed : ℤ) : ℕ → ℕ
  | 0 => createPRNG seed
  | n + 1 => (mulberry32 (prngStateAt seed n)).1

/-- Output of the (n+1)-st call to random() on a generator created from the
given seed. -/
def prngOutputAt (seed : ℤ) (n : ℕ) : ℚ := (mulberry32 (prngStateAt seed n)).2

/-! ## Combatant model (src/tower.ts)

Fields radius (40), spawnDuration (0.2) and maxHp (3) are initialised once
and never reassigned anywhere in the source, so they are embedded as
constants rather than record fields. -/

/-- Constant Tower.radius field (always 40). -/
def towerRadius : ℚ := 40

/-- Constant Tower.spawnDuration field (always 0.2). -/
def spawnDuration : ℚ := 1 / 5

/-- Constant Tower.maxHp field (always 3). -/
def maxHp : ℚ := 3

/-- Fire event emitted by a cannon (the elements of the fires list returned
by Tower.update). -/
structure Fire where
  x : ℚ
  y : ℚ
  angle : ℚ
  deriving DecidableEq

/-- Armament record (interface Cannon in src/tower.ts). -/
structure Cannon where
  orbitAngle : ℚ
  orbitSpeed : ℚ
  oscillatePhase : ℚ
  oscillateSpeed : ℚ
  fireTimer : ℚ
  fireInterval : ℚ
  spawnTime : ℚ
  scale : ℚ
  deriving DecidableEq

/-- Embedding of cannonWorldAim: outward radial direction plus a sine
oscillation of amplitude π/2. -/
def cannonWorldAim (ops : MathOps) (c : Cannon) : ℚ :=
  c.orbitAngle + ops.sin c.oscillatePhase * (piQ / 2)

/-- Combatant record (class Tower in src/tower.ts). -/
structure Tower where
  id : ℤ
  x : ℚ
  y : ℚ
  color : String
  hp : ℤ
  alive : Bool
  invincible : Bool
  spawnTime : ℚ
  scale : ℚ
  hasFinger : Bool
  withdrawScale : ℚ
  withdrawing : Bool
  cannons : List Cannon
  cannonVisible : Bool
  flashTimer : ℚ
  shakeTimer : ℚ
  shakeX : ℚ
  shakeY : ℚ
  lastDeathOrder : ℤ
  deriving DecidableEq

/-- Embedding of the Tower constructor: all fields at their declared
initial values. -/
def mkTower (id : ℤ) (x y : ℚ) (color : String) : Tower :=
  { id := id, x := x, y := y, color := color, hp := 3, alive := true,
    invincible := false, spawnTime := 0, scale := 0, hasFinger := true,
    withdrawScale := 1, withdrawing := false, cannons := [],
    cannonVisible := false, flashTimer := 0, shakeTimer := 0,
    shakeX := 0, shakeY := 0, lastDeathOrder := 0 }

/-- Embedding of Tower.addCannon under a seeded generator (the prng branch
of the optional-RNG parameter; during battle a generator is always
supplied).  Draws happen in source evaluation order: orbit angle (first
cannon only), orbit speed magnitude, sign coin, oscillation phase,
oscillation speed, fire timer, fire interval. -/
def Tower.addCannon (elapsed : ℚ) (p : ℕ) (t : Tower) : Tower × ℕ :=
  let (p1, orbitAngle) :=
    match t.cannons.getLast? with
    | none => prngRange p 0 (piQ * 2)
    | some prev => (p, prev.orbitAngle + piQ * 2 / (t.cannons.length + 1))
  let (p2, spd) := prngRange p1 (3 / 2) 3
  let (p3, coin) := mulberry32 p2
  let orbitSpeed := spd * (if 1 / 2 < coin then 1 else -1)
  let (p4, oscillatePhase) := prngRange p3 0 (piQ * 2)
  let (p5, oscillateSpeed) := prngRange p4 2 4
  let (p6, fireTimer) := prngRange p5 (1 / 10) (4 / 5)
  let (p7, fireInterval) := prngRange p6 (2 / 5) 1
  ({ t with cannons := t.cannons ++
      [{ orbitAngle := orbitAngle, orbitSpeed := orbitSpeed,
         oscillatePhase := oscillatePhase, oscillateSpeed := oscillateSpeed,
         fireTimer := fireTimer, fireInterval := fireInterval,
         spawnTime := elapsed, scale := 0 }] }, p7)

/-- Embedding of Tower.startBattle: show cannons, add the first one. -/
def Tower.startBattle (elapsed : ℚ) (p : ℕ) (t : Tower) : Tower × ℕ :=
  Tower.addCannon elapsed p { t with cannonVisible := true }

/-- Embedding of Tower.hit: no-op returning false when invincible,
otherwise decrement hp, start flash/shake timers and set alive to false
when the decremented hp is ≤ 0; returns true. -/
def Tower.hit (t : Tower) : Tower × Bool :=
  if t.invincible then (t, false)
  else
    let t1 := { t with hp := t.hp - 1, flashTimer := 1 / 10, shakeTimer := 1 / 5 }
    let t2 := if t1.hp ≤ 0 then { t1 with alive := false } else t1
    (t2, true)

/-- Spawn-scale animation step of Tower.update. -/
def stepSpawnScale (elapsed : ℚ) (t : Tower) : Tower :=
  if t.scale < 1 then
    { t with scale := easeOutBack (min 1 ((elapsed - t.spawnTime) / spawnDuration)) }
  else t

/-- Withdraw/restore step of Tower.update: shrink while withdrawing (dying
at zero), regrow at double speed otherwise. -/
def stepWithdraw (dt : ℚ) (t : Tower) : Tower :=
  if t.withdrawing then
    let ws := max 0 (t.withdrawScale - dt)
    let t1 := { t with withdrawScale := ws }
    if ws ≤ 0 then { t1 with alive := false } else t1
  else if t.withdrawScale < 1 then
    { t with withdrawScale := min 1 (t.withdrawScale + dt * 2) }
  else t

/-- Hit-flash timer step of Tower.update. -/
def stepFlash (dt : ℚ) (t : Tower) : Tower :=
  if 0 < t.flashTimer then { t with flashTimer := t.flashTimer - dt } else t

/-- Shake step of Tower.update: the two randomRange(-4, 4) draws come from
the unseeded Math.random stream, modelled by the noise oracle and a cursor
that advances once per draw. -/
def stepShake (noise : ℕ → ℚ) (nIdx : ℕ) (dt : ℚ) (t : Tower) : Tower × ℕ :=
  if 0 < t.shakeTimer then
    let st := t.shakeTimer - dt
    ({ t with shakeTimer := st,
              shakeX := (-4 + noise nIdx * 8) * (st / (1 / 5)),
              shakeY := (-4 + noise (nIdx + 1) * 8) * (st / (1 / 5)) }, nIdx + 2)
  else ({ t with shakeX := 0, shakeY := 0 }, nIdx)

/-- Per-cannon step of Tower.update: spawn animation, orbit and oscillation
advance, then fire when fully grown and the tower is present enough
(withdrawScale > 0.5). -/
def stepCannon (ops : MathOps) (dt elapsed : ℚ) (t : Tower) (c : Cannon) :
    Cannon × Option Fire :=
  let c1 := if c.scale < 1 then
      { c with scale := easeOutBack (min 1 ((elapsed - c.spawnTime) / (2 / 5))) }
    else c
  let c2 := { c1 with orbitAngle := c1.orbitAngle + c1.orbitSpeed * dt,
                      oscillatePhase := c1.oscillatePhase + c1.oscillateSpeed * dt }
  if 1 ≤ c2.scale ∧ 1 / 2 < t.withdrawScale then
    let ft := c2.fireTimer - dt
    if ft ≤ 0 then
      ({ c2 with fireTimer := c2.fireInterval },
       some { x := t.x + ops.cos c2.orbitAngle * towerRadius,
              y := t.y + ops.sin c2.orbitAngle * towerRadius,
              angle := cannonWorldAim ops c2 })
    else ({ c2 with fireTimer := ft }, none)
  else (c2, none)

/-- Embedding of Tower.update: spawn scale, withdraw, flash, shake, then
every cannon in order, collecting fire events.  Returns the updated tower,
the fires list, and the advanced noise cursor. -/
def Tower.update (ops : MathOps) (noise : ℕ → ℚ) (nIdx : ℕ) (dt elapsed : ℚ)
    (t : Tower) : Tower × List Fire × ℕ :=
  let t1 := stepSpawnScale elapsed t
  let t2 := stepWithdraw dt t1
  let t3 := stepFlash dt t2
  let sh := stepShake noise nIdx dt t3
  let cf := sh.1.cannons.foldl
    (fun (acc : List Cannon × List Fire) c =>
      let r := stepCannon ops dt elapsed sh.1 c
      (acc.1 ++ [r.1], acc.2 ++ r.2.toList))
    ([], [])
  ({ sh.1 with cannons := cf.1 }, cf.2, sh.2)

/-! ## Projectile model (src/bullet.ts)

The field turnRate (4) is initialised once and never reassigned, so it is
embedded as a constant. -/

/-- Constant Bullet.turnRate field (always 4 radians per second). -/
def turnRate : ℚ := 4

/-- Embedding of the first steering while loop (while diff > π subtract
2π). -/
def normDown (d : ℚ) : ℚ :=
  if piQ < d then normDown (d - piQ * 2) else d
termination_by (⌈(d - piQ) / (piQ * 2)⌉).toNat
decreasing_by
  have h2 : (0 : ℚ) < piQ * 2 := by norm_num [piQ]
  have key : (d - piQ * 2 - piQ) / (piQ * 2) = (d - piQ) / (piQ * 2) - 1 := by
    field_simp
    ring
  have hceil : ⌈(d - piQ * 2 - piQ) / (piQ * 2)⌉ = ⌈(d - piQ) / (piQ * 2)⌉ - 1 := by
    rw [key, Int.ceil_sub_one]
  have hpos2 : (0 : ℚ) < (d - piQ) / (piQ * 2) := by
    apply div_pos _ h2
    linarith
  have h1 : (0 : ℤ) < ⌈(d - piQ) / (piQ * 2)⌉ := Int.ceil_pos.mpr hpos2
  rw [hceil]
  omega

/-- Embedding of the second steering while loop (while diff < -π add 2π). -/
def normUp (d : ℚ) : ℚ :=
  if d < -piQ then normUp (d + piQ * 2) else d
termination_by (⌈(-piQ - d) / (piQ * 2)⌉).toNat
decreasing_by
  have h2 : (0 : ℚ) < piQ * 2 := by norm_num [piQ]
  have key : (-piQ - (d + piQ * 2)) / (piQ * 2) = (-piQ - d) / (piQ * 2) - 1 := by
    field_simp
    ring
  have hceil : ⌈(-piQ - (d + piQ * 2)) / (piQ * 2)⌉ = ⌈(-piQ - d) / (piQ * 2)⌉ - 1 := by
    rw [key, Int.ceil_sub_one]
  have hpos2 : (0 : ℚ) < (-piQ - d) / (piQ * 2) := by
    apply div_pos _ h2
    linarith
  have h1 : (0 : ℤ) < ⌈(-piQ - d) / (piQ * 2)⌉ := Int.ceil_pos.mpr hpos2
  rw [hceil]
  omega

/-- Projectile record (class Bullet in src/bullet.ts). -/
structure Bullet where
  x : ℚ
  y : ℚ
  vx : ℚ
  vy : ℚ
  color : String
  sourceId : ℤ
  radius : ℚ
  speed : ℚ
  alive : Bool
  trail : List (ℚ × ℚ)
  guided : Bool
  targetX : ℚ
  targetY : ℚ
  deriving DecidableEq

/-- Embedding of the Bullet constructor.  Note the source initialises vx/vy
from this.speed BEFORE the guided branch lowers this.speed to 264, so the
initial velocity always uses 360; the first guided update recomputes the
velocity from the (lowered) speed field before any motion happens. -/
def mkBullet (ops : MathOps) (x y angle : ℚ) (color : String) (sourceId : ℤ)
    (guided : Bool) : Bullet :=
  { x := x, y := y, vx := ops.cos angle * 360, vy := ops.sin angle * 360,
    color := color, sourceId := sourceId,
    radius := if guided then 7 else 5, speed := if guided then 264 else 360,
    alive := true, trail := [], guided := guided, targetX := 0, targetY := 0 }

/-- Embedding of Bullet.setTarget. -/
def Bullet.setTarget (tx ty : ℚ) (b : Bullet) : Bullet :=
  { b with targetX := tx, targetY := ty }

/-- Trail push/shift step of Bullet.update (rendering data, carried for
completeness). -/
def bulletTrailStep (b : Bullet) : Bullet :=
  let trail0 := b.trail ++ [(b.x, b.y)]
  { b with trail := if (if b.guided then 12 else 6) < trail0.length then trail0.tail else trail0 }

/-- Guided steering step of Bullet.update: shortest signed angle toward
the target, clamped to turnRate * dt, velocity recomputed at the speed
field. -/
def bulletSteerStep (ops : MathOps) (dt : ℚ) (b : Bullet) : Bullet :=
  if b.guided then
    let desiredAngle := angleBetween ops b.x b.y b.targetX b.targetY
    let currentAngle := ops.atan2 b.vy b.vx
    let diff := normUp (normDown (desiredAngle - currentAngle))
    let steer := jsSign diff * min |diff| (turnRate * dt)
    let newAngle := currentAngle + steer
    { b with vx := ops.cos newAngle * b.speed, vy := ops.sin newAngle * b.speed }
  else b

/-- Motion step of Bullet.update. -/
def bulletMoveStep (dt : ℚ) (b : Bullet) : Bullet :=
  { b with x := b.x + b.vx * dt, y := b.y + b.vy * dt }

/-- Out-of-bounds removal step of Bullet.update (arena expanded by the
50px margin). -/
def bulletBoundsStep (canvasW canvasH : ℚ) (b : Bullet) : Bullet :=
  if b.x < -50 ∨ canvasW + 50 < b.x ∨ b.y < -50 ∨ canvasH + 50 < b.y then
    { b with alive := false }
  else b

/-- Embedding of Bullet.update: push the trail, steer when guided, move,
then die outside the expanded arena. -/
def Bullet.update (ops : MathOps) (dt canvasW canvasH : ℚ) (b : Bullet) : Bullet :=
  bulletBoundsStep canvasW canvasH (bulletMoveStep dt (bulletSteerStep ops dt (bulletTrailStep b)))

/-! ## Battle engine loops shared by runHeadlessSim and Game.update

The escalation loop, the guided-volley loop, the tower-update loop and the
backwards bullets loop are textually duplicated between Game.update and
Game.runHeadlessSim in the source (with the noted parameter differences);
they are embedded once here and instantiated by both drivers. -/

/-- Snapshot entry captured at battle start ({id, x, y, color}). -/
structure TowerSnapshot where
  id : ℤ
  x : ℚ
  y : ℚ
  color : String
  deriving DecidableEq

/-- One tower of the escalation loop: a living, sufficiently present tower
gains a cannon, threading the seeded generator. -/
def escalateStep (elapsed : ℚ) (acc : List Tower × ℕ) (t : Tower) : List Tower × ℕ :=
  if t.alive = true ∧ 1 / 2 < t.withdrawScale then
    let r := Tower.addCannon elapsed acc.2 t
    (acc.1 ++ [r.1], r.2)
  else (acc.1 ++ [t], acc.2)

/-- Escalation loop body over the towers in order. -/
def escalateTowers (elapsed : ℚ) (towers : List Tower) (p : ℕ) : List Tower × ℕ :=
  towers.foldl (escalateStep elapsed) ([], p)

/-- Guided-missile firing for one tower (fireGuidedMissile, inlined with the
prng inside runHeadlessSim at lines 324-335): pick a uniformly random
living non-invincible enemy, a uniformly random own cannon as launch point
(tower centre when there is none), and append one guided bullet aimed at
the target. -/
def fireGuidedMissileT (ops : MathOps) (towers : List Tower) (tower : Tower)
    (p : ℕ) (bullets : List Bullet) : ℕ × List Bullet :=
  let enemies := towers.filter (fun u => u.alive && (u.id != tower.id) && !u.invincible)
  match enemies with
  | [] => (p, bullets)
  | e :: _ =>
    let (p1, r1) := mulberry32 p
    let target := enemies.getD (⌊r1 * enemies.length⌋).toNat e
    let pc : ℕ × Option Cannon :=
      match tower.cannons with
      | [] => (p1, none)
      | c0 :: _ =>
        let (p2, r2) := mulberry32 p1
        (p2, some (tower.cannons.getD (⌊r2 * tower.cannons.length⌋).toNat c0))
    let fireX := match pc.2 with
      | some c => tower.x + ops.cos c.orbitAngle * towerRadius
      | none => tower.x
    let fireY := match pc.2 with
      | some c => tower.y + ops.sin c.orbitAngle * towerRadius
      | none => tower.y
    let aimAngle := angleBetween ops fireX fireY target.x target.y
    let bullet := (mkBullet ops fireX fireY aimAngle tower.color tower.id true).setTarget target.x target.y
    (pc.1, bullets ++ [bullet])

/-- Guided-volley loop body: every living, sufficiently present tower fires
one guided missile; the towers list itself is not mutated by this loop. -/
def volleyStep (ops : MathOps) (towers : List Tower) (acc : ℕ × List Bullet)
    (t : Tower) : ℕ × List Bullet :=
  if t.alive = true ∧ 1 / 2 < t.withdrawScale then
    fireGuidedMissileT ops towers t acc.1 acc.2
  else acc

/-- Guided-volley loop over the towers in order. -/
def volleyFire (ops : MathOps) (towers : List Tower) (p : ℕ) (bullets : List Bullet) :
    ℕ × List Bullet :=
  towers.foldl (volleyStep ops towers) (p, bullets)

/-- Tower-update loop body: update every living tower in order, record a
death order when a tower dies during its update (presence decay), and turn
the emitted fire events into ballistic bullets when pushFires holds (in the
live loop fires are pushed only in the BATTLE state). -/
def towersLoopStep (ops : MathOps) (noise : ℕ → ℚ) (dt elapsed : ℚ)
    (pushFires : Bool) (acc : List Tower × ℤ × List Bullet × ℕ) (t : Tower) :
    List Tower × ℤ × List Bullet × ℕ :=
  let ts := acc.1
  let dc := acc.2.1
  let bs := acc.2.2.1
  let ni := acc.2.2.2
  if t.alive = false then (ts ++ [t], dc, bs, ni)
  else
    let r := Tower.update ops noise ni dt elapsed t
    let t1 := r.1
    let fires := r.2.1
    let td :=
      if t1.alive = false then ({ t1 with lastDeathOrder := dc + 1 }, dc + 1)
      else (t1, dc)
    let bs1 :=
      if pushFires then
        bs ++ fires.map (fun f => mkBullet ops f.x f.y f.angle td.1.color td.1.id false)
      else bs
    (ts ++ [td.1], td.2, bs1, r.2.2)

/-- Tower-update loop over the towers in order. -/
def updateTowersLoop (ops : MathOps) (noise : ℕ → ℚ) (dt elapsed : ℚ)
    (pushFires : Bool) (towers : List Tower) (dc0 : ℤ) (bullets0 : List Bullet)
    (nIdx0 : ℕ) : List Tower × ℤ × List Bullet × ℕ :=
  towers.foldl (towersLoopStep ops noise dt elapsed pushFires) ([], dc0, bullets0, nIdx0)

/-- Guided-bullet retarget step of the bullets loop: aim at the nearest
living non-invincible enemy, or stop homing (guided := false, heading kept)
when no eligible enemy remains. -/
def nearestStep (ops : MathOps) (x0 y0 : ℚ) (acc : Tower × ℚ) (u : Tower) : Tower × ℚ :=
  let d := dist ops x0 y0 u.x u.y
  if d < acc.2 then (u, d) else acc

/-- Guided retarget of the bullets loop (see retargetBullet). -/
def retargetBullet (ops : MathOps) (towers : List Tower) (b : Bullet) : Bullet :=
  if b.guided then
    let enemies := towers.filter (fun u => u.alive && (u.id != b.sourceId) && !u.invincible)
    match enemies with
    | [] => { b with guided := false }
    | e :: rest =>
      let nb := rest.foldl (nearestStep ops b.x b.y)
        (e, dist ops b.x b.y e.x e.y)
      b.setTarget nb.1.x nb.1.y
  else b

/-- Collision scan of one bullet against the towers in list order: the
first tower that is alive, not the owner, not invincible, present enough
(withdrawScale ≥ 0.3) and within radius takes the hit and the scan stops
(break); a death increments the death counter and is recorded on the
tower.  Returns the updated towers, death counter, and the hitSomething
flag. -/
def collideScan (ops : MathOps) (b : Bullet) (dc : ℤ) :
    List Tower → List Tower × ℤ × Bool
  | [] => ([], dc, false)
  | t :: ts =>
    if t.alive = false ∨ t.id = b.sourceId then
      let r := collideScan ops b dc ts
      (t :: r.1, r.2.1, r.2.2)
    else if t.invincible then
      let r := collideScan ops b dc ts
      (t :: r.1, r.2.1, r.2.2)
    else if t.withdrawScale < 3 / 10 then
      let r := collideScan ops b dc ts
      (t :: r.1, r.2.1, r.2.2)
    else if dist ops b.x b.y t.x t.y < towerRadius * t.scale * t.withdrawScale + b.radius then
      let h := t.hit
      if h.2 then
        let td :=
          if h.1.alive = false then ({ h.1 with lastDeathOrder := dc + 1 }, dc + 1)
          else (h.1, dc)
        (td.1 :: ts, td.2, true)
      else (h.1 :: ts, dc, false)
    else
      let r := collideScan ops b dc ts
      (t :: r.1, r.2.1, r.2.2)

/-- Backwards bullets loop: the source iterates i from bullets.length - 1
down to 0, so this recursion consumes the REVERSED bullets list (head =
last element = first processed).  Each step retargets (guided), moves,
splices dead bullets, then resolves collision; surviving bullets are
returned in their original array order. -/
def bulletsGoRev (ops : MathOps) (dt canvasW canvasH : ℚ) :
    List Bullet → List Tower → ℤ → List Bullet × List Tower × ℤ
  | [], towers, dc => ([], towers, dc)
  | b :: rest, towers, dc =>
    let b1 := retargetBullet ops towers b
    let b2 := Bullet.update ops dt canvasW canvasH b1
    if b2.alive = false then
      bulletsGoRev ops dt canvasW canvasH rest towers dc
    else
      let c := collideScan ops b2 dc towers
      let r := bulletsGoRev ops dt canvasW canvasH rest c.1 c.2.1
      if c.2.2 then r
      else (r.1 ++ [b2], r.2.1, r.2.2)

/-- Bullets loop on the array in its stored order. -/
def bulletsPhaseL (ops : MathOps) (dt canvasW canvasH : ℚ) (bullets : List Bullet)
    (towers : List Tower) (dc : ℤ) : List Bullet × List Tower × ℤ :=
  bulletsGoRev ops dt canvasW canvasH bullets.reverse towers dc

/-- Winner decision read from the towers after a full tick (lines 412-419
of runHeadlessSim and the same computation at lines 644-652 of
Game.update): none while at least two towers live; the single survivor, or
with zero survivors the reduce over all towers keeping the strictly higher
lastDeathOrder (first maximum wins ties).  The empty-towers case cannot be
reached (the drivers require two towers) and is defensively none. -/
def checkWinner (towers : List Tower) : Option ℤ :=
  let aliveTowers := towers.filter (fun t => t.alive)
  if aliveTowers.length ≤ 1 then
    match aliveTowers with
    | [t] => some t.id
    | _ =>
      match towers with
      | [] => none
      | t :: ts =>
        some ((ts.foldl (fun a b => if b.lastDeathOrder < a.lastDeathOrder then a else b) t).id)
  else none

/-! ## Headless simulation driver (Game.runHeadlessSim) -/

/-- Parameter bundle of one battle simulation: math interpretation,
unseeded-noise oracle, fixed timestep, canvas size and the elapsed time at
battle start. -/
structure SimCtx where
  ops : MathOps
  noise : ℕ → ℚ
  dt : ℚ
  canvasW : ℚ
  canvasH : ℚ
  startElapsed : ℚ

/-- Mutable state of one headless battle attempt. -/
structure SimSt where
  simElapsed : ℚ
  lastCannonEscalation : ℚ
  guidedMissileActive : Bool
  guidedMissileTimer : ℚ
  deathCounter : ℤ
  towers : List Tower
  bullets : List Bullet
  prng : ℕ
  noiseIdx : ℕ
  deriving DecidableEq

/-- Cannon escalation phase (every 3 time units). -/
def escalationPhase (s : SimSt) : SimSt :=
  if 3 ≤ s.simElapsed - s.lastCannonEscalation then
    let r := escalateTowers s.simElapsed s.towers s.prng
    { s with lastCannonEscalation := s.simElapsed, towers := r.1, prng := r.2 }
  else s

/-- Guided-missile activation once battle time reaches 10 time units. -/
def missileActivatePhase (startElapsed : ℚ) (s : SimSt) : SimSt :=
  if 10 ≤ s.simElapsed - startElapsed ∧ s.guidedMissileActive = false then
    { s with guidedMissileActive := true, guidedMissileTimer := 0 }
  else s

/-- Guided-volley phase: a repeating 1.5 time-unit timer fires one missile
per living, present tower. -/
def volleyPhase (ops : MathOps) (dt : ℚ) (s : SimSt) : SimSt :=
  if s.guidedMissileActive then
    let timer := s.guidedMissileTimer - dt
    if timer ≤ 0 then
      let r := volleyFire ops s.towers s.prng s.bullets
      { s with guidedMissileTimer := 3 / 2, prng := r.1, bullets := r.2 }
    else { s with guidedMissileTimer := timer }
  else s

/-- Tower-update phase. -/
def towersPhase (ops : MathOps) (noise : ℕ → ℚ) (dt : ℚ) (pushFires : Bool)
    (s : SimSt) : SimSt :=
  let r := updateTowersLoop ops noise dt s.simElapsed pushFires s.towers
    s.deathCounter s.bullets s.noiseIdx
  { s with towers := r.1, deathCounter := r.2.1, bullets := r.2.2.1, noiseIdx := r.2.2.2 }

/-- Bullets phase. -/
def bulletsPhase (ops : MathOps) (dt canvasW canvasH : ℚ) (s : SimSt) : SimSt :=
  let r := bulletsPhaseL ops dt canvasW canvasH s.bullets s.towers s.deathCounter
  { s with bullets := r.1, towers := r.2.1, deathCounter := r.2.2 }

/-- Body of one fixed tick, before the trailing simElapsed increment:
escalation, missile activation, volley, tower updates, bullet updates. -/
def tickCore (ctx : SimCtx) (pushFires : Bool) (s : SimSt) : SimSt :=
  bulletsPhase ctx.ops ctx.dt ctx.canvasW ctx.canvasH
    (towersPhase ctx.ops ctx.noise ctx.dt pushFires
      (volleyPhase ctx.ops ctx.dt
        (missileActivatePhase ctx.startElapsed
          (escalationPhase s))))

/-- Trailing simElapsed += dt of the tick loop. -/
def simBump (dt : ℚ) (s : SimSt) : SimSt := { s with simElapsed := s.simElapsed + dt }

/-- Fuelled tick loop of runHeadlessSim: run one tick, return the winner
when decided, otherwise bump simElapsed and continue; -1 when the fuel
(tick budget) is exhausted. -/
def simLoop (ctx : SimCtx) : ℕ → SimSt → ℤ
  | 0, _ => -1
  | fuel + 1, s =>
    let s1 := tickCore ctx true s
    match checkWinner s1.towers with
    | some w => w
    | none => simLoop ctx fuel (simBump ctx.dt s1)

/-- Fresh towers created from the snapshots (spawnTime := startElapsed,
scale := 1, everything else at constructor defaults). -/
def initTowers (snapshots : List TowerSnapshot) (startElapsed : ℚ) : List Tower :=
  snapshots.map (fun sn =>
    { mkTower sn.id sn.x sn.y sn.color with spawnTime := startElapsed, scale := 1 })

/-- Battle start for every tower in order, threading the seeded
generator. -/
def startBattleStep (elapsed : ℚ) (acc : List Tower × ℕ) (t : Tower) : List Tower × ℕ :=
  let r := Tower.startBattle elapsed acc.2 t
  (acc.1 ++ [r.1], r.2)

/-- Battle start for every tower in order, threading the generator. -/
def startBattleAll (elapsed : ℚ) (towers : List Tower) (p : ℕ) : List Tower × ℕ :=
  towers.foldl (startBattleStep elapsed) ([], p)

/-- Initial headless simulation state for a snapshot and a seed. -/
def initSim (snapshots : List TowerSnapshot) (seed : ℤ) (startElapsed : ℚ) : SimSt :=
  let towers0 := initTowers snapshots startElapsed
  let r := startBattleAll startElapsed towers0 (createPRNG seed)
  { simElapsed := startElapsed, lastCannonEscalation := startElapsed,
    guidedMissileActive := false, guidedMissileTimer := 0, deathCounter := 0,
    towers := r.1, bullets := [], prng := r.2, noiseIdx := 0 }

/-- Tick budget of the headless simulation (60 seconds at 60fps). -/
def maxTicks : ℕ := 3600

/-- Embedding of Game.runHeadlessSim: early return for degenerate
snapshots (single tower wins with zero ticks simulated, empty snapshot is
-1), otherwise run the fixed-tick loop at dt = 1/60 under the seeded
generator, up to 3600 ticks. -/
def runHeadlessSim (ops : MathOps) (noise : ℕ → ℚ) (snapshots : List TowerSnapshot)
    (seed : ℤ) (canvasW canvasH startElapsed : ℚ) : ℤ :=
  if snapshots.length ≤ 1 then
    match snapshots with
    | [sn] => sn.id
    | _ => -1
  else
    simLoop
      { ops := ops, noise := noise, dt := 1 / 60, canvasW := canvasW,
        canvasH := canvasH, startElapsed := startElapsed }
      maxTicks (initSim snapshots seed startElapsed)

/-- Embedding of Game.findWinningScenario: probe seeds 0, 1, ... below
2000 in order and return the first whose headless outcome equals the
chosen winner id; -1 when none matches. -/
def findWinningScenario (ops : MathOps) (noise : ℕ → ℚ)
    (snapshots : List TowerSnapshot) (chosenWinnerId : ℤ)
    (canvasW canvasH startElapsed : ℚ) : ℤ :=
  match (List.range 2000).find?
      (fun (seed : ℕ) => runHeadlessSim ops noise snapshots (seed : ℤ) canvasW canvasH startElapsed == chosenWinnerId) with
  | some s => (s : ℤ)
  | none => -1

/-! ## Live game loop (class Game, battle path)

Only the parts of Game that the replay-identity claim exercises are
modelled: the BATTLE-state branch of update(), the tower/bullet loops that
run in every state, the winner transition, and the winning branch of
startBattle().  Input handlers, rendering (particles, victory arrows,
draw), the PLACING/COUNTDOWN countdown logic and the NUKE fallback
animation are outside the battle core.  During a seeded battle simPrng is
always present; the unseeded fallback draws (simPrng null) are not
modelled. -/

/-- Game state enumeration (type GameState). -/
inductive GState where
  | WAITING
  | PLACING
  | COUNTDOWN
  | BATTLE
  | NUKE
  | WINNER
  | BLACK
  deriving DecidableEq

/-- Game fields that the battle path reads or writes. -/
structure GameSt where
  state : GState
  towers : List Tower
  bullets : List Bullet
  width : ℚ
  height : ℚ
  elapsed : ℚ
  battleStartTime : ℚ
  winnerTime : ℚ
  lastCannonEscalation : ℚ
  guidedMissileActive : Bool
  guidedMissileTimer : ℚ
  deathCounter : ℤ
  textPulse : ℚ
  simPrng : Option ℕ
  chosenWinnerId : ℤ
  winningSeed : ℤ
  noiseIdx : ℕ
  deriving DecidableEq

/-- Shared prologue of Game.startBattle: reset the battle timers and the
death counter. -/
def startBattleCommon (g : GameSt) : GameSt :=
  { g with battleStartTime := g.elapsed, lastCannonEscalation := g.elapsed,
           guidedMissileActive := false, guidedMissileTimer := 0, deathCounter := 0 }

/-- Snapshot list captured by startBattle. -/
def snapshotsOf (towers : List Tower) : List TowerSnapshot :=
  towers.map (fun t => { id := t.id, x := t.x, y := t.y, color := t.color })

/-- One tower of the startBattle loop in Game.startBattle: force scale to
1, then start its battle on the shared seeded generator. -/
def liveStartStep (elapsed : ℚ) (acc : List Tower × ℕ) (t : Tower) : List Tower × ℕ :=
  let r1 := Tower.startBattle elapsed acc.2 { t with scale := 1 }
  (acc.1 ++ [r1.1], r1.2)

/-- Winning branch of Game.startBattle (lines 468-476), taking the found
seed as a parameter: enter BATTLE, seed the generator with the winning
seed, and for each tower in order force scale to 1 and start its battle on
the shared generator.  The fair winner pick and the nuke fallback are not
part of the claims checked here. -/
def startBattleWithSeed (seed : ℤ) (g : GameSt) : GameSt :=
  let g1 := startBattleCommon g
  let r := g1.towers.foldl (liveStartStep g1.elapsed) ([], createPRNG seed)
  { g1 with state := GState.BATTLE, winningSeed := seed,
            towers := r.1, simPrng := some r.2 }

/-- BATTLE-state block of Game.update: escalation, missile activation and
guided volleys, using the seeded generator (this.simPrng). -/
def liveBattleBlock (ops : MathOps) (dt : ℚ) (g : GameSt) : GameSt :=
  if g.state = GState.BATTLE then
    let g1 :=
      if 3 ≤ g.elapsed - g.lastCannonEscalation then
        let r := escalateTowers g.elapsed g.towers (g.simPrng.getD 0)
        { g with lastCannonEscalation := g.elapsed, towers := r.1, simPrng := some r.2 }
      else g
    let g2 :=
      if 10 ≤ g1.elapsed - g1.battleStartTime ∧ g1.guidedMissileActive = false then
        { g1 with guidedMissileActive := true, guidedMissileTimer := 0 }
      else g1
    if g2.guidedMissileActive then
      let timer := g2.guidedMissileTimer - dt
      if timer ≤ 0 then
        let r := volleyFire ops g2.towers (g2.simPrng.getD 0) g2.bullets
        { g2 with guidedMissileTimer := 3 / 2, simPrng := some r.1, bullets := r.2 }
      else { g2 with guidedMissileTimer := timer }
    else g2
  else g

/-- Tower-update loop of Game.update; fires become bullets only in the
BATTLE state. -/
def liveTowersBlock (ops : MathOps) (noise : ℕ → ℚ) (dt : ℚ) (g : GameSt) : GameSt :=
  let r := updateTowersLoop ops noise dt g.elapsed (decide (g.state = GState.BATTLE))
    g.towers g.deathCounter g.bullets g.noiseIdx
  { g with towers := r.1, deathCounter := r.2.1, bullets := r.2.2.1, noiseIdx := r.2.2.2 }

/-- Bullets loop of Game.update (identical to the headless one, against
this.width/this.height). -/
def liveBulletsBlock (ops : MathOps) (dt : ℚ) (g : GameSt) : GameSt :=
  let r := bulletsPhaseL ops dt g.width g.height g.bullets g.towers g.deathCounter
  { g with bullets := r.1, towers := r.2.1, deathCounter := r.2.2 }

/-- Winner transition of Game.update (lines 643-663): when at most one
tower is left alive during BATTLE, enter WINNER; with zero survivors the
last tower to die is resurrected with 1 hp; the winner becomes invincible
and fully present.  Tower ids are unique (assigned by nextTowerId++), so
the in-place object mutation is modelled as a map over the id. -/
def liveWinnerCheck (g : GameSt) : GameSt :=
  if g.state = GState.BATTLE then
    match checkWinner g.towers with
    | none => g
    | some wid =>
      let resurrect := (g.towers.filter (fun t => t.alive)).length = 0
      { g with state := GState.WINNER, winnerTime := g.elapsed,
               towers := g.towers.map (fun t =>
                 if t.id = wid then
                   let t1 := if resurrect then { t with alive := true, hp := 1 } else t
                   { t1 with invincible := true, withdrawing := false,
                             withdrawScale := 1, hasFinger := true }
                 else t) }
  else g

/-- Body of one Game.update call after the leading elapsed increment (the
remainder of the call in which startBattle ran executes exactly this
body). -/
def liveBody (ops : MathOps) (noise : ℕ → ℚ) (dt : ℚ) (g : GameSt) : GameSt :=
  liveWinnerCheck (liveBulletsBlock ops dt (liveTowersBlock ops noise dt (liveBattleBlock ops dt g)))

/-- Leading elapsed/textPulse increments of Game.update. -/
def liveBump (dt : ℚ) (g : GameSt) : GameSt :=
  { g with elapsed := g.elapsed + dt, textPulse := g.textPulse + dt }

/-- Embedding of Game.update restricted to the battle path (states BATTLE
and WINNER; the PLACING/COUNTDOWN transition branch and the NUKE animation
block are not modelled). -/
def Game.update (ops : MathOps) (noise : ℕ → ℚ) (dt : ℚ) (g : GameSt) : GameSt :=
  liveBody ops noise dt (liveBump dt g)

/-- Pre-phase live states: index k is the game state at the start of the
battle logic of tick k.  Tick 0 runs inside the update call that invoked
startBattle (elapsed was already incremented before startBattle), each
later tick starts with the elapsed increment of its own update call. -/
def livePre (ops : MathOps) (noise : ℕ → ℚ) (dt : ℚ) (g0 : GameSt) : ℕ → GameSt
  | 0 => g0
  | k + 1 => liveBump dt (liveBody ops noise dt (livePre ops noise dt g0 k))

/-- Pre-phase headless states: index k is the simulation state at the top
of loop iteration k (simElapsed is bumped at the end of each iteration). -/
def simPre (ctx : SimCtx) (s0 : SimSt) : ℕ → SimSt
  | 0 => s0
  | k + 1 => simBump ctx.dt (tickCore ctx true (simPre ctx s0 k))

/-! ## Observational equivalence up to cosmetic noise

The hit-shake offsets shakeX/shakeY are produced by the unseeded
Math.random stream and are never read by the battle logic (the collision
test of both drivers uses tower.x/tower.y directly), and spawnTime is only
read by the spawn animation while scale < 1 (battle towers start at
scale = 1).  normT erases exactly these fields; two states with equal
normalisations produce observably identical battles. -/

/-- Normalisation of a tower: zero the shake offsets, and zero spawnTime
once the spawn animation is over (scale ≥ 1 makes spawnTime dead). -/
def normT (t : Tower) : Tower :=
  { t with shakeX := 0, shakeY := 0,
           spawnTime := if t.scale < 1 then t.spawnTime else 0 }

/-- Observational equivalence of towers. -/
def NRel (a b : Tower) : Prop := normT a = normT b

/-- Observational equivalence of headless simulation states: equal up to
tower normalisation and the unseeded-noise cursor. -/
def SimRel (s1 s2 : SimSt) : Prop :=
  s1.simElapsed = s2.simElapsed ∧
  s1.lastCannonEscalation = s2.lastCannonEscalation ∧
  s1.guidedMissileActive = s2.guidedMissileActive ∧
  s1.guidedMissileTimer = s2.guidedMissileTimer ∧
  s1.deathCounter = s2.deathCounter ∧
  List.Forall₂ NRel s1.towers s2.towers ∧
  s1.bullets = s2.bullets ∧
  s1.prng = s2.prng

/-- Projection of the live game onto the headless simulation state (the
live battle fields correspond one to one). -/
def toSim (g : GameSt) : SimSt :=
  { simElapsed := g.elapsed, lastCannonEscalation := g.lastCannonEscalation,
    guidedMissileActive := g.guidedMissileActive,
    guidedMissileTimer := g.guidedMissileTimer, deathCounter := g.deathCounter,
    towers := g.towers, bullets := g.bullets, prng := g.simPrng.getD 0,
    noiseIdx := g.noiseIdx }

/-- Winner decision produced by tick k (checked after the phases of tick k,
before the simElapsed bump). -/
def decisionAt (ctx : SimCtx) (s0 : SimSt) (k : ℕ) : Option ℤ :=
  checkWinner (tickCore ctx true (simPre ctx s0 k)).towers

/-- Decision of the live tick k (the winner check of Game.update reads the
towers after the bullets loop of that call). -/
def liveDecisionAt (ops : MathOps) (noise : ℕ → ℚ) (dt : ℚ) (g0 : GameSt) (k : ℕ) : Option ℤ :=
  checkWinner (liveBulletsBlock ops dt (liveTowersBlock ops noise dt
    (liveBattleBlock ops dt (livePre ops noise dt g0 k)))).towers

/-- Index of the first deciding tick within the budget. -/
def firstDecisionTick (ctx : SimCtx) (s0 : SimSt) : Option ℕ :=
  (List.range maxTicks).find? (fun k => (decisionAt ctx s0 k).isSome)

/-- Outcome-relevant observation of a tower (id, health, position, life). -/
def towerObs (t : Tower) : ℤ × ℤ × ℚ × ℚ × Bool := (t.id, t.hp, t.x, t.y, t.alive)

/-- Pre-battle tower freshness: the state every tower placed by addTower is
in when startBattle runs (spawnTime, shake offsets and scale are
irrelevant: scale is forced to 1 by startBattle). -/
def FreshTower (sn : TowerSnapshot) (t : Tower) : Prop :=
  t.id = sn.id ∧ t.x = sn.x ∧ t.y = sn.y ∧ t.color = sn.color ∧
  t.hp = 3 ∧ t.alive = true ∧ t.invincible = false ∧ t.hasFinger = true ∧
  t.withdrawScale = 1 ∧ t.withdrawing = false ∧ t.cannons = [] ∧
  t.cannonVisible = false ∧ t.flashTimer = 0 ∧ t.shakeTimer = 0 ∧
  t.lastDeathOrder = 0

/-! ## Concrete fixtures used by the witnesses -/

/-- Degenerate math interpretation used to evaluate witnesses. -/
def ops0 : MathOps :=
  { cos := fun _ => 0, sin := fun _ => 0, atan2 := fun _ _ => 0, sqrt := fun _ => 0 }

/-- Zero noise stream used to evaluate witnesses. -/
def noise0 : ℕ → ℚ := fun _ => 0

/-- Pre-battle live game fixture: two freshly placed towers, no bullets. -/
def gW : GameSt :=
  { state := GState.WAITING,
    towers := [mkTower 0 100 100 "#FF3333", mkTower 1 300 100 "#33BBFF"],
    bullets := [], width := 400, height := 400, elapsed := 2, battleStartTime := 0,
    winnerTime := 0, lastCannonEscalation := 0, guidedMissileActive := false,
    guidedMissileTimer := 0, deathCounter := 0, textPulse := 0, simPrng := none,
    chosenWinnerId := 1, winningSeed := 0, noiseIdx := 0 }

/-- Concrete snapshots. -/
def snapA : TowerSnapshot := { id := 0, x := 100, y := 100, color := "#FF3333" }

/-- Concrete snapshot, second tower. -/
def snapB : TowerSnapshot := { id := 1, x := 300, y := 100, color := "#33BBFF" }

/-- Concrete snapshot used by the degenerate-case witnesses. -/
def snapC : TowerSnapshot := { id := 5, x := 200, y := 200, color := "#88EE33" }

/-- Concrete freshly-placed towers matching snapA/snapB. -/
def towerA : Tower := { mkTower 0 100 100 "#FF3333" with spawnTime := 7, scale := 1 }

/-- Concrete freshly-placed tower matching snapB. -/
def towerB : Tower := { mkTower 1 300 100 "#33BBFF" with spawnTime := 8, scale := 1 }

/-- Concrete withdrawing tower used by the presence-decay counterexample:
alive with full health but almost fully withdrawn. -/
def towerW : Tower :=
  { mkTower 2 50 50 "#FF3333" with
      scale := 1, withdrawing := true, withdrawScale := 1 / 100, hasFinger := false }

/-- Concrete invincible tower. -/
def towerI : Tower := { mkTower 3 60 60 "#33BBFF" with scale := 1, invincible := true }

/-- Concrete dead towers with distinct death orders. -/
def towerD1 : Tower :=
  { mkTower 0 100 100 "#FF3333" with scale := 1, alive := false, hp := 0, lastDeathOrder := 3 }

/-- Concrete dead tower with the highest death order. -/
def towerD2 : Tower :=
  { mkTower 1 300 100 "#33BBFF" with scale := 1, alive := false, hp := 0, lastDeathOrder := 4 }

/-! ## Theorems -/

theorem toPattern_add_two_pow_32 (s : ℤ) : toPattern (s + 2 ^ 32) = toPattern s := by
  unfold toPattern
  norm_num [Int.add_mul_emod_self_left]

theorem mulberry32_state_lt (s : ℕ) : (mulberry32 s).1 < U32 := by
  unfold mulberry32 add32
  exact Nat.mod_lt _ (by norm_num [U32])

theorem mulberry32_out_nonneg (s : ℕ) : 0 ≤ (mulberry32 s).2 := by
  unfold mulberry32
  dsimp only
  positivity

theorem xor_lt_u32 {a b : ℕ} (ha : a < U32) (hb : b < U32) : a ^^^ b < U32 :=
  Nat.xor_lt_two_pow (n := 32) ha hb

theorem mulberry32_out_lt_one (s : ℕ) : (mulberry32 s).2 < 1 := by
  unfold mulberry32
  dsimp only
  rw [div_lt_one (by norm_num)]
  have h1 : add32 s 0x6d2b79f5 < U32 := Nat.mod_lt _ (by norm_num [U32])
  set s1 := add32 s 0x6d2b79f5 with hs1
  have ht1 : imul32 (s1 ^^^ (s1 >>> 15)) (s1 ||| 1) < U32 := Nat.mod_lt _ (by norm_num [U32])
  set t1 := imul32 (s1 ^^^ (s1 >>> 15)) (s1 ||| 1) with hT1
  have ht2 : (add32 t1 (imul32 (t1 ^^^ (t1 >>> 7)) (t1 ||| 61))) ^^^ t1 < U32 :=
    xor_lt_u32 (Nat.mod_lt _ (by norm_num [U32])) ht1
  set t2 := (add32 t1 (imul32 (t1 ^^^ (t1 >>> 7)) (t1 ||| 61))) ^^^ t1 with hT2
  have hshift : t2 >>> 14 < U32 := by
    rw [Nat.shiftRight_eq_div_pow]
    exact lt_of_le_of_lt (Nat.div_le_self _ _) ht2
  have hout : t2 ^^^ (t2 >>> 14) < U32 := xor_lt_u32 ht2 hshift
  exact_mod_cast hout

/-- Claim C10: createPRNG truncates its seed to a 32-bit integer on
construction (seed | 0), so for every integer seed s the generators
createPRNG(s) and createPRNG(s + 2^32) have the same initial state and
produce identical output sequences, and every random() output lies in
[0, 1). -/
theorem c10_prng_seed_truncation (s : ℤ) (n : ℕ) :
    createPRNG (s + 2 ^ 32) = createPRNG s ∧
    prngStateAt (s + 2 ^ 32) n = prngStateAt s n ∧
    prngOutputAt (s + 2 ^ 32) n = prngOutputAt s n ∧
    0 ≤ prngOutputAt s n ∧ prngOutputAt s n < 1 := by
  have hinit : createPRNG (s + 2 ^ 32) = createPRNG s := toPattern_add_two_pow_32 s
  have hstate : ∀ m, prngStateAt (s + 2 ^ 32) m = prngStateAt s m := by
    intro m
    induction m with
    | zero => exact hinit
    | succ k ih => simp only [prngStateAt, ih]
  refine ⟨hinit, hstate n, ?_, mulberry32_out_nonneg _, mulberry32_out_lt_one _⟩
  unfold prngOutputAt
  rw [hstate n]


/-! ### Field-preservation lemmas for the Tower.update steps -/

theorem stepSpawnScale_hp (e : ℚ) (t : Tower) : (stepSpawnScale e t).hp = t.hp := by
  unfold stepSpawnScale
  split <;> rfl

theorem stepSpawnScale_alive (e : ℚ) (t : Tower) : (stepSpawnScale e t).alive = t.alive := by
  unfold stepSpawnScale
  split <;> rfl

theorem stepWithdraw_hp (dt : ℚ) (t : Tower) : (stepWithdraw dt t).hp = t.hp := by
  simp only [stepWithdraw]
  split_ifs <;> rfl

theorem stepWithdraw_alive (dt : ℚ) (t : Tower) :
    (stepWithdraw dt t).alive =
      if t.withdrawing = true ∧ t.withdrawScale - dt ≤ 0 then false else t.alive := by
  simp only [stepWithdraw]
  by_cases hw : t.withdrawing = true
  · by_cases hz : t.withdrawScale - dt ≤ 0
    · have hz2 : 0 ⊔ (t.withdrawScale - dt) ≤ 0 := by simpa using hz
      simp [hw, hz, hz2]
    · have hz2 : ¬ 0 ⊔ (t.withdrawScale - dt) ≤ 0 := by simpa using hz
      simp [hw, hz, hz2]
  · simp only [hw]
    rw [if_neg (by simp [hw])]
    split <;> rfl

theorem stepFlash_hp (dt : ℚ) (t : Tower) : (stepFlash dt t).hp = t.hp := by
  unfold stepFlash
  split <;> rfl

theorem stepFlash_alive (dt : ℚ) (t : Tower) : (stepFlash dt t).alive = t.alive := by
  unfold stepFlash
  split <;> rfl

theorem stepShake_hp (noise : ℕ → ℚ) (n : ℕ) (dt : ℚ) (t : Tower) :
    (stepShake noise n dt t).1.hp = t.hp := by
  unfold stepShake
  split <;> rfl

theorem stepShake_alive (noise : ℕ → ℚ) (n : ℕ) (dt : ℚ) (t : Tower) :
    (stepShake noise n dt t).1.alive = t.alive := by
  unfold stepShake
  split <;> rfl

theorem update_hp (ops : MathOps) (noise : ℕ → ℚ) (n : ℕ) (dt e : ℚ) (t : Tower) :
    (Tower.update ops noise n dt e t).1.hp = t.hp := by
  unfold Tower.update
  simp only [stepShake_hp, stepFlash_hp, stepWithdraw_hp, stepSpawnScale_hp]

theorem update_alive (ops : MathOps) (noise : ℕ → ℚ) (n : ℕ) (dt e : ℚ) (t : Tower) :
    (Tower.update ops noise n dt e t).1.alive =
      if t.withdrawing = true ∧ t.withdrawScale - dt ≤ 0 then false else t.alive := by
  unfold Tower.update
  simp only [stepShake_alive, stepFlash_alive, stepWithdraw_alive]
  unfold stepSpawnScale
  split <;> rfl

/-! ### Claim theorems C7, C6, C9 -/

/-- Claim C7: Tower.hit on an invincible combatant returns false and leaves
every field unchanged; on a non-invincible combatant it decrements health
by exactly one, starts the flash (0.1) and shake (0.2) timers, sets
alive = false exactly when the decremented health is ≤ 0 (alive is
untouched otherwise), and returns true. -/
theorem c7_hit_semantics (t : Tower) :
    (t.invincible = true → Tower.hit t = (t, false)) ∧
    (t.invincible = false →
      (Tower.hit t).2 = true ∧
      (Tower.hit t).1.hp = t.hp - 1 ∧
      (Tower.hit t).1.flashTimer = 1 / 10 ∧
      (Tower.hit t).1.shakeTimer = 1 / 5 ∧
      (Tower.hit t).1.alive = (if t.hp - 1 ≤ 0 then false else t.alive) ∧
      (Tower.hit t).1.id = t.id ∧ (Tower.hit t).1.x = t.x ∧
      (Tower.hit t).1.y = t.y ∧ (Tower.hit t).1.color = t.color ∧
      (Tower.hit t).1.invincible = t.invincible ∧
      (Tower.hit t).1.spawnTime = t.spawnTime ∧
      (Tower.hit t).1.scale = t.scale ∧
      (Tower.hit t).1.hasFinger = t.hasFinger ∧
      (Tower.hit t).1.withdrawScale = t.withdrawScale ∧
      (Tower.hit t).1.withdrawing = t.withdrawing ∧
      (Tower.hit t).1.cannons = t.cannons ∧
      (Tower.hit t).1.cannonVisible = t.cannonVisible ∧
      (Tower.hit t).1.shakeX = t.shakeX ∧ (Tower.hit t).1.shakeY = t.shakeY ∧
      (Tower.hit t).1.lastDeathOrder = t.lastDeathOrder) := by
  constructor
  · intro h
    unfold Tower.hit
    rw [if_pos h]
  · intro h
    unfold Tower.hit
    rw [if_neg (by simp [h])]
    by_cases hz : t.hp - 1 ≤ 0
    · simp [hz, h]
    · simp [hz, h]

/-- Closed witness for C7 at concrete towers. -/
theorem c7_hit_semantics_witness :
    Tower.hit towerI = (towerI, false) ∧ (Tower.hit towerA).2 = true ∧
    (Tower.hit towerA).1.hp = towerA.hp - 1 :=
  ⟨(c7_hit_semantics towerI).1 (by decide),
   ((c7_hit_semantics towerA).2 (by decide)).1,
   ((c7_hit_semantics towerA).2 (by decide)).2.1⟩

/-- Counterexample to claim C6 as stated: Tower.update on a withdrawing
combatant whose presence has fully decayed flips alive to false while its
health is still 3, so alive can transition to false without health
reaching zero. -/
theorem c6_counterexample :
    towerW.alive = true ∧ towerW.hp = 3 ∧ towerW.invincible = false ∧
    (Tower.update ops0 noise0 0 (1 / 60) 5 towerW).1.alive = false ∧
    (Tower.update ops0 noise0 0 (1 / 60) 5 towerW).1.hp = 3 := by
  with_unfolding_all decide

/-- Claim C6 as amended: hit() decrements health exactly when the combatant
is not invincible and sets alive to false exactly when the decremented
health is ≤ 0 (or it was already dead); update() never changes health, and
the only way update() turns alive to false is complete presence withdrawal
(withdrawScale - dt reaching 0) with health unchanged; an invincible
combatant is never damaged by any operation. -/
theorem c6_health_alive_amended (ops : MathOps) (noise : ℕ → ℚ) (nIdx : ℕ)
    (dt elapsed : ℚ) (t : Tower) :
    (t.invincible = true → Tower.hit t = (t, false)) ∧
    (Tower.update ops noise nIdx dt elapsed t).1.hp = t.hp ∧
    (t.invincible = false →
      ((Tower.hit t).1.alive = false ↔ (t.hp - 1 ≤ 0 ∨ t.alive = false))) ∧
    (t.alive = true →
      ((Tower.update ops noise nIdx dt elapsed t).1.alive = false ↔
        (t.withdrawing = true ∧ t.withdrawScale - dt ≤ 0))) := by
  refine ⟨fun h => (c7_hit_semantics t).1 h, update_hp ops noise nIdx dt elapsed t, ?_, ?_⟩
  · intro h
    have halive := ((c7_hit_semantics t).2 h).2.2.2.2.1
    rw [halive]
    by_cases hz : t.hp - 1 ≤ 0
    · simp [hz]
    · simp [hz]
  · intro ha
    rw [update_alive]
    by_cases hw : t.withdrawing = true ∧ t.withdrawScale - dt ≤ 0
    · simp [hw]
    · simp [hw, ha]

/-- Closed witness for the amended C6. -/
theorem c6_health_alive_amended_witness :
    (Tower.update ops0 noise0 0 (1 / 60) 5 towerW).1.hp = towerW.hp ∧
    ((Tower.update ops0 noise0 0 (1 / 60) 5 towerW).1.alive = false ↔
      (towerW.withdrawing = true ∧ towerW.withdrawScale - 1 / 60 ≤ 0)) ∧
    Tower.hit towerI = (towerI, false) :=
  ⟨(c6_health_alive_amended ops0 noise0 0 (1 / 60) 5 towerW).2.1,
   (c6_health_alive_amended ops0 noise0 0 (1 / 60) 5 towerW).2.2.2 (by with_unfolding_all decide),
   (c6_health_alive_amended ops0 noise0 0 (1 / 60) 5 towerI).1 (by decide)⟩

/-- Claim C9: runHeadlessSim on a snapshot with fewer than 2 combatants
returns before simulating any tick (the early return precedes the tick
loop): a 1-combatant snapshot yields that combatant id under any seed
(the result does not depend on the seed), and an empty snapshot yields
-1. -/
theorem c9_degenerate_snapshots (ops : MathOps) (noise : ℕ → ℚ)
    (sn : TowerSnapshot) (seed seed2 : ℤ) (canvasW canvasH startElapsed : ℚ) :
    runHeadlessSim ops noise [sn] seed canvasW canvasH startElapsed = sn.id ∧
    runHeadlessSim ops noise [] seed canvasW canvasH startElapsed = -1 ∧
    runHeadlessSim ops noise [sn] seed canvasW canvasH startElapsed =
      runHeadlessSim ops noise [sn] seed2 canvasW canvasH startElapsed := by
  refine ⟨?_, ?_, ?_⟩ <;> simp [runHeadlessSim]

/-! ### Claim C5: simultaneous elimination resolves to the last to die -/

theorem simLoop_succ (ctx : SimCtx) (fuel : ℕ) (s : SimSt) :
    simLoop ctx (fuel + 1) s =
      match checkWinner (tickCore ctx true s).towers with
      | some w => w
      | none => simLoop ctx fuel (simBump ctx.dt (tickCore ctx true s)) := rfl

theorem foldl_pick_ge (ts : List Tower) (t : Tower) :
    t.lastDeathOrder ≤
      (ts.foldl (fun a b => if b.lastDeathOrder < a.lastDeathOrder then a else b) t).lastDeathOrder ∧
    ∀ u ∈ ts, u.lastDeathOrder ≤
      (ts.foldl (fun a b => if b.lastDeathOrder < a.lastDeathOrder then a else b) t).lastDeathOrder := by
  induction ts generalizing t with
  | nil => simp
  | cons h tl ih =>
    simp only [List.foldl_cons]
    have hstep : t.lastDeathOrder ≤ (if h.lastDeathOrder < t.lastDeathOrder then t else h).lastDeathOrder ∧
        h.lastDeathOrder ≤ (if h.lastDeathOrder < t.lastDeathOrder then t else h).lastDeathOrder := by
      split <;> omega
    refine ⟨le_trans hstep.1 (ih _).1, ?_⟩
    intro u hu
    rcases List.mem_cons.mp hu with rfl | hu
    · exact le_trans hstep.2 (ih _).1
    · exact (ih _).2 u hu

theorem foldl_pick_mem (ts : List Tower) (t : Tower) :
    (ts.foldl (fun a b => if b.lastDeathOrder < a.lastDeathOrder then a else b) t) = t ∨
    (ts.foldl (fun a b => if b.lastDeathOrder < a.lastDeathOrder then a else b) t) ∈ ts := by
  induction ts generalizing t with
  | nil => simp
  | cons h tl ih =>
    simp only [List.foldl_cons]
    rcases ih (if h.lastDeathOrder < t.lastDeathOrder then t else h) with heq | hmem
    · rw [heq]
      split
      · exact Or.inl rfl
      · exact Or.inr (List.mem_cons_self _ _)
    · exact Or.inr (List.mem_cons_of_mem _ hmem)

/-- Claim C5: when the set of living combatants becomes empty after a
tick (simultaneous elimination of the last survivors), the winner
decision — consulted by the tick loop, which stops and returns it — is the
combatant with the strictly highest recorded death order, which is the
last combatant to have transitioned alive to false (death orders are
assigned from an increasing counter within the resolution passes). -/
theorem c5_simultaneous_elimination (towers : List Tower) (t : Tower)
    (ctx : SimCtx) (fuel : ℕ) (s : SimSt)
    (hdead : towers.filter (fun u => u.alive) = [])
    (hmem : t ∈ towers)
    (hmax : ∀ u ∈ towers, u ≠ t → u.lastDeathOrder < t.lastDeathOrder) :
    checkWinner towers = some t.id ∧
    (checkWinner (tickCore ctx true s).towers = some t.id →
      simLoop ctx (fuel + 1) s = t.id) := by
  constructor
  · cases towers with
    | nil => cases hmem
    | cons t0 ts =>
      simp only [checkWinner]
      rw [hdead]
      simp only [List.length_nil, Nat.zero_le, if_pos]
      have hm := foldl_pick_mem ts t0
      have hge := foldl_pick_ge ts t0
      set m := ts.foldl (fun a b => if b.lastDeathOrder < a.lastDeathOrder then a else b) t0 with hmdef
      have hmm : m ∈ t0 :: ts := by
        rcases hm with heq | hmem2
        · rw [heq]; exact List.mem_cons_self _ _
        · exact List.mem_cons_of_mem _ hmem2
      have htle : t.lastDeathOrder ≤ m.lastDeathOrder := by
        rcases List.mem_cons.mp hmem with rfl | hmem2
        · exact hge.1
        · exact hge.2 t hmem2
      have hmt : m = t := by
        by_contra hne
        exact absurd htle (not_le.mpr (hmax m hmm hne))
      rw [hmt]
  · intro hw
    rw [simLoop_succ, hw]

/-- Closed witness for C5: two dead towers, death orders 3 and 4; the
decision picks the one that died last. -/
theorem c5_simultaneous_elimination_witness :
    checkWinner [towerD1, towerD2] = some towerD2.id :=
  (c5_simultaneous_elimination [towerD1, towerD2] towerD2
    ⟨ops0, noise0, 1 / 60, 400, 400, 0⟩ 0 (initSim [snapA, snapB] 0 0)
    (by with_unfolding_all decide)
    (by with_unfolding_all decide)
    (by with_unfolding_all decide)).1

/-! ### Claim C8: homing projectile speed and steering -/

theorem piQ_pos : (0 : ℚ) < piQ := by norm_num [piQ]

theorem piQ2_pos : (0 : ℚ) < piQ * 2 := by norm_num [piQ]

theorem piQ2_ne : (piQ * 2 : ℚ) ≠ 0 := ne_of_gt piQ2_pos

theorem ceil_key_down (d : ℚ) :
    ⌈(d - piQ * 2 - piQ) / (piQ * 2)⌉ = ⌈(d - piQ) / (piQ * 2)⌉ - 1 := by
  rw [show d - piQ * 2 - piQ = d - piQ - piQ * 2 by ring, sub_div, div_self piQ2_ne,
    Int.ceil_sub_one]

theorem ceil_key_up (d : ℚ) :
    ⌈(-piQ - (d + piQ * 2)) / (piQ * 2)⌉ = ⌈(-piQ - d) / (piQ * 2)⌉ - 1 := by
  rw [show -piQ - (d + piQ * 2) = -piQ - d - piQ * 2 by ring, sub_div, div_self piQ2_ne,
    Int.ceil_sub_one]

theorem ceil_pos_down {d : ℚ} (h : piQ < d) : (0 : ℤ) < ⌈(d - piQ) / (piQ * 2)⌉ :=
  Int.ceil_pos.mpr (div_pos (by linarith) piQ2_pos)

theorem ceil_pos_up {d : ℚ} (h : d < -piQ) : (0 : ℤ) < ⌈(-piQ - d) / (piQ * 2)⌉ :=
  Int.ceil_pos.mpr (div_pos (by linarith) piQ2_pos)

theorem normDown_le_aux (n : ℕ) : ∀ d : ℚ, (⌈(d - piQ) / (piQ * 2)⌉).toNat ≤ n →
    normDown d ≤ piQ := by
  induction n with
  | zero =>
    intro d hd
    have h : ¬ piQ < d := fun hlt => by have := ceil_pos_down hlt; omega
    rw [normDown, if_neg h]
    linarith [not_lt.mp h]
  | succ k ih =>
    intro d hd
    by_cases h : piQ < d
    · rw [normDown, if_pos h]
      apply ih
      have hceil := ceil_key_down d
      have hpos := ceil_pos_down h
      omega
    · rw [normDown, if_neg h]
      linarith [not_lt.mp h]

theorem normDown_le (d : ℚ) : normDown d ≤ piQ := normDown_le_aux _ d le_rfl

theorem normDown_congr_aux (n : ℕ) : ∀ d : ℚ, (⌈(d - piQ) / (piQ * 2)⌉).toNat ≤ n →
    ∃ k : ℤ, normDown d = d - k * (piQ * 2) := by
  induction n with
  | zero =>
    intro d hd
    have h : ¬ piQ < d := fun hlt => by have := ceil_pos_down hlt; omega
    exact ⟨0, by rw [normDown, if_neg h]; ring⟩
  | succ k ih =>
    intro d hd
    by_cases h : piQ < d
    · rw [normDown, if_pos h]
      have hceil := ceil_key_down d
      have hpos := ceil_pos_down h
      obtain ⟨j, hj⟩ := ih (d - piQ * 2) (by omega)
      refine ⟨j + 1, ?_⟩
      rw [hj]
      push_cast
      ring
    · exact ⟨0, by rw [normDown, if_neg h]; ring⟩

theorem normDown_congr (d : ℚ) : ∃ k : ℤ, normDown d = d - k * (piQ * 2) :=
  normDown_congr_aux _ d le_rfl

theorem normUp_ge_aux (n : ℕ) : ∀ d : ℚ, (⌈(-piQ - d) / (piQ * 2)⌉).toNat ≤ n →
    -piQ ≤ normUp d := by
  induction n with
  | zero =>
    intro d hd
    have h : ¬ d < -piQ := fun hlt => by have := ceil_pos_up hlt; omega
    rw [normUp, if_neg h]
    linarith [not_lt.mp h]
  | succ k ih =>
    intro d hd
    by_cases h : d < -piQ
    · rw [normUp, if_pos h]
      apply ih
      have hceil := ceil_key_up d
      have hpos := ceil_pos_up h
      omega
    · rw [normUp, if_neg h]
      linarith [not_lt.mp h]

theorem normUp_ge (d : ℚ) : -piQ ≤ normUp d := normUp_ge_aux _ d le_rfl

theorem normUp_le_aux (n : ℕ) : ∀ d : ℚ, (⌈(-piQ - d) / (piQ * 2)⌉).toNat ≤ n →
    d ≤ piQ → normUp d ≤ piQ := by
  induction n with
  | zero =>
    intro d hd hle
    have h : ¬ d < -piQ := fun hlt => by have := ceil_pos_up hlt; omega
    rw [normUp, if_neg h]
    exact hle
  | succ k ih =>
    intro d hd hle
    by_cases h : d < -piQ
    · rw [normUp, if_pos h]
      have hceil := ceil_key_up d
      have hpos := ceil_pos_up h
      refine ih (d + piQ * 2) (by omega) ?_
      have hpi := piQ_pos
      linarith
    · rw [normUp, if_neg h]
      exact hle

theorem normUp_le (d : ℚ) (h : d ≤ piQ) : normUp d ≤ piQ := normUp_le_aux _ d le_rfl h

theorem normUp_congr_aux (n : ℕ) : ∀ d : ℚ, (⌈(-piQ - d) / (piQ * 2)⌉).toNat ≤ n →
    ∃ k : ℤ, normUp d = d + k * (piQ * 2) := by
  induction n with
  | zero =>
    intro d hd
    have h : ¬ d < -piQ := fun hlt => by have := ceil_pos_up hlt; omega
    exact ⟨0, by rw [normUp, if_neg h]; ring⟩
  | succ k ih =>
    intro d hd
    by_cases h : d < -piQ
    · rw [normUp, if_pos h]
      have hceil := ceil_key_up d
      have hpos := ceil_pos_up h
      obtain ⟨j, hj⟩ := ih (d + piQ * 2) (by omega)
      refine ⟨j + 1, ?_⟩
      rw [hj]
      push_cast
      ring
    · exact ⟨0, by rw [normUp, if_neg h]; ring⟩

theorem normUp_congr (d : ℚ) : ∃ k : ℤ, normUp d = d + k * (piQ * 2) :=
  normUp_congr_aux _ d le_rfl

theorem steer_props (diffv r : ℚ) (hr : 0 ≤ r) :
    |jsSign diffv * min |diffv| r| ≤ r ∧
    |jsSign diffv * min |diffv| r| ≤ |diffv| ∧
    (0 ≤ diffv → 0 ≤ jsSign diffv * min |diffv| r) ∧
    (diffv ≤ 0 → jsSign diffv * min |diffv| r ≤ 0) := by
  have hmin0 : 0 ≤ min |diffv| r := le_min (abs_nonneg _) hr
  unfold jsSign
  by_cases h1 : 0 < diffv
  · rw [if_pos h1, one_mul, abs_of_nonneg hmin0]
    exact ⟨min_le_right _ _, min_le_left _ _, fun _ => hmin0,
      fun hle => absurd h1 (not_lt.mpr hle)⟩
  · rw [if_neg h1]
    by_cases h2 : diffv < 0
    · rw [if_pos h2, neg_one_mul, abs_neg, abs_of_nonneg hmin0]
      refine ⟨min_le_right _ _, min_le_left _ _,
        fun h0 => absurd h2 (not_lt.mpr h0), fun _ => neg_nonpos.mpr hmin0⟩
    · have h0 : diffv = 0 := le_antisymm (not_lt.mp h1) (not_lt.mp h2)
      subst h0
      simp [hr]

theorem bulletTrailStep_x (b : Bullet) : (bulletTrailStep b).x = b.x := rfl

theorem bulletTrailStep_y (b : Bullet) : (bulletTrailStep b).y = b.y := rfl

theorem bulletTrailStep_vx (b : Bullet) : (bulletTrailStep b).vx = b.vx := rfl

theorem bulletTrailStep_vy (b : Bullet) : (bulletTrailStep b).vy = b.vy := rfl

theorem bulletTrailStep_speed (b : Bullet) : (bulletTrailStep b).speed = b.speed := rfl

theorem bulletTrailStep_guided (b : Bullet) : (bulletTrailStep b).guided = b.guided := rfl

theorem bulletTrailStep_targetX (b : Bullet) : (bulletTrailStep b).targetX = b.targetX := rfl

theorem bulletTrailStep_targetY (b : Bullet) : (bulletTrailStep b).targetY = b.targetY := rfl

theorem bulletSteerStep_speed (ops : MathOps) (dt : ℚ) (b : Bullet) :
    (bulletSteerStep ops dt b).speed = b.speed := by
  unfold bulletSteerStep
  split <;> rfl

theorem bulletSteerStep_x (ops : MathOps) (dt : ℚ) (b : Bullet) :
    (bulletSteerStep ops dt b).x = b.x := by
  unfold bulletSteerStep
  split <;> rfl

theorem bulletSteerStep_y (ops : MathOps) (dt : ℚ) (b : Bullet) :
    (bulletSteerStep ops dt b).y = b.y := by
  unfold bulletSteerStep
  split <;> rfl

theorem bulletSteerStep_guided_eq (ops : MathOps) (dt : ℚ) (b : Bullet) :
    (bulletSteerStep ops dt b).guided = b.guided := by
  unfold bulletSteerStep
  split <;> rfl

theorem bulletSteerStep_not_guided (ops : MathOps) (dt : ℚ) (b : Bullet)
    (h : b.guided = false) : bulletSteerStep ops dt b = b := by
  unfold bulletSteerStep
  rw [if_neg (by simp [h])]

theorem bulletSteerStep_guided (ops : MathOps) (dt : ℚ) (b : Bullet)
    (h : b.guided = true) :
    bulletSteerStep ops dt b =
      { b with
          vx := ops.cos (ops.atan2 b.vy b.vx +
            jsSign (normUp (normDown (angleBetween ops b.x b.y b.targetX b.targetY -
              ops.atan2 b.vy b.vx))) *
              min |normUp (normDown (angleBetween ops b.x b.y b.targetX b.targetY -
                ops.atan2 b.vy b.vx))| (turnRate * dt)) * b.speed,
          vy := ops.sin (ops.atan2 b.vy b.vx +
            jsSign (normUp (normDown (angleBetween ops b.x b.y b.targetX b.targetY -
              ops.atan2 b.vy b.vx))) *
              min |normUp (normDown (angleBetween ops b.x b.y b.targetX b.targetY -
                ops.atan2 b.vy b.vx))| (turnRate * dt)) * b.speed } := by
  unfold bulletSteerStep
  rw [if_pos h]

theorem bulletMoveStep_x (dt : ℚ) (b : Bullet) : (bulletMoveStep dt b).x = b.x + b.vx * dt := rfl

theorem bulletMoveStep_y (dt : ℚ) (b : Bullet) : (bulletMoveStep dt b).y = b.y + b.vy * dt := rfl

theorem bulletMoveStep_vx (dt : ℚ) (b : Bullet) : (bulletMoveStep dt b).vx = b.vx := rfl

theorem bulletMoveStep_vy (dt : ℚ) (b : Bullet) : (bulletMoveStep dt b).vy = b.vy := rfl

theorem bulletMoveStep_speed (dt : ℚ) (b : Bullet) : (bulletMoveStep dt b).speed = b.speed := rfl

theorem bulletMoveStep_guided (dt : ℚ) (b : Bullet) : (bulletMoveStep dt b).guided = b.guided := rfl

theorem bulletBoundsStep_x (w h : ℚ) (b : Bullet) : (bulletBoundsStep w h b).x = b.x := by
  unfold bulletBoundsStep
  split <;> rfl

theorem bulletBoundsStep_y (w h : ℚ) (b : Bullet) : (bulletBoundsStep w h b).y = b.y := by
  unfold bulletBoundsStep
  split <;> rfl

theorem bulletBoundsStep_vx (w h : ℚ) (b : Bullet) : (bulletBoundsStep w h b).vx = b.vx := by
  unfold bulletBoundsStep
  split <;> rfl

theorem bulletBoundsStep_vy (w h : ℚ) (b : Bullet) : (bulletBoundsStep w h b).vy = b.vy := by
  unfold bulletBoundsStep
  split <;> rfl

theorem bulletBoundsStep_speed (w h : ℚ) (b : Bullet) : (bulletBoundsStep w h b).speed = b.speed := by
  unfold bulletBoundsStep
  split <;> rfl

theorem bulletBoundsStep_guided (w h : ℚ) (b : Bullet) : (bulletBoundsStep w h b).guided = b.guided := by
  unfold bulletBoundsStep
  split <;> rfl

/-- Claim C8: a guided projectile is constructed with the slower homing
speed 264 (versus 360 for ballistic) and a 7px radius; update never
changes the speed field; on every guided tick the velocity is recomputed
at the speed field along a heading steered from the current heading by
sign(diff) * min(|diff|, turnRate * dt) where diff is the desired-heading
difference normalised into [-π, π] (signed shortest angle), so the heading
changes by at most turnRate * dt and the projectile moves exactly
speed * dt along the steered heading; a non-guided update keeps the
velocity, and the retarget step degrades a guided bullet to guided = false
(all other fields kept) exactly when its eligible-enemy set is empty. -/
theorem c8_homing_projectile (ops : MathOps) (dt canvasW canvasH : ℚ)
    (b : Bullet) (towers : List Tower) (hdt : 0 ≤ dt) :
    (∀ x y a c sid, (mkBullet ops x y a c sid true).speed = 264 ∧
      (mkBullet ops x y a c sid true).radius = 7 ∧
      (mkBullet ops x y a c sid false).speed = 360) ∧
    (Bullet.update ops dt canvasW canvasH b).speed = b.speed ∧
    (b.guided = true →
      ∃ diffv steer : ℚ,
        diffv = normUp (normDown (angleBetween ops b.x b.y b.targetX b.targetY -
          ops.atan2 b.vy b.vx)) ∧
        steer = jsSign diffv * min |diffv| (turnRate * dt) ∧
        (Bullet.update ops dt canvasW canvasH b).vx =
          ops.cos (ops.atan2 b.vy b.vx + steer) * b.speed ∧
        (Bullet.update ops dt canvasW canvasH b).vy =
          ops.sin (ops.atan2 b.vy b.vx + steer) * b.speed ∧
        (Bullet.update ops dt canvasW canvasH b).x =
          b.x + ops.cos (ops.atan2 b.vy b.vx + steer) * b.speed * dt ∧
        (Bullet.update ops dt canvasW canvasH b).y =
          b.y + ops.sin (ops.atan2 b.vy b.vx + steer) * b.speed * dt ∧
        |steer| ≤ turnRate * dt ∧ |steer| ≤ |diffv| ∧
        (0 ≤ diffv → 0 ≤ steer) ∧ (diffv ≤ 0 → steer ≤ 0) ∧
        -piQ ≤ diffv ∧ diffv ≤ piQ ∧
        (∃ k : ℤ, diffv = (angleBetween ops b.x b.y b.targetX b.targetY -
          ops.atan2 b.vy b.vx) + k * (piQ * 2))) ∧
    (b.guided = false →
      (Bullet.update ops dt canvasW canvasH b).vx = b.vx ∧
      (Bullet.update ops dt canvasW canvasH b).vy = b.vy ∧
      (Bullet.update ops dt canvasW canvasH b).guided = false) ∧
    (b.guided = true →
      towers.filter (fun u => u.alive && (u.id != b.sourceId) && !u.invincible) = [] →
      retargetBullet ops towers b = { b with guided := false }) := by
  refine ⟨fun x y a c sid => ⟨rfl, rfl, rfl⟩, ?_, ?_, ?_, ?_⟩
  · unfold Bullet.update
    rw [bulletBoundsStep_speed, bulletMoveStep_speed, bulletSteerStep_speed,
      bulletTrailStep_speed]
  · intro hg
    refine ⟨_, _, rfl, rfl, ?_⟩
    have htg : (bulletTrailStep b).guided = true := by rw [bulletTrailStep_guided, hg]
    have hsteer := bulletSteerStep_guided ops dt (bulletTrailStep b) htg
    have hs := steer_props
      (normUp (normDown (angleBetween ops b.x b.y b.targetX b.targetY - ops.atan2 b.vy b.vx)))
      (turnRate * dt) (mul_nonneg (by norm_num [turnRate]) hdt)
    have hrange1 := normUp_ge
      (normDown (angleBetween ops b.x b.y b.targetX b.targetY - ops.atan2 b.vy b.vx))
    have hrange2 := normUp_le
      (normDown (angleBetween ops b.x b.y b.targetX b.targetY - ops.atan2 b.vy b.vx))
      (normDown_le _)
    have hcongr : ∃ k : ℤ,
        normUp (normDown (angleBetween ops b.x b.y b.targetX b.targetY - ops.atan2 b.vy b.vx)) =
          (angleBetween ops b.x b.y b.targetX b.targetY - ops.atan2 b.vy b.vx) + k * (piQ * 2) := by
      obtain ⟨k1, hk1⟩ := normDown_congr
        (angleBetween ops b.x b.y b.targetX b.targetY - ops.atan2 b.vy b.vx)
      obtain ⟨k2, hk2⟩ := normUp_congr
        (normDown (angleBetween ops b.x b.y b.targetX b.targetY - ops.atan2 b.vy b.vx))
      refine ⟨k2 - k1, ?_⟩
      rw [hk2, hk1]
      push_cast
      ring
    refine ⟨?_, ?_, ?_, ?_, hs.1, hs.2.1, hs.2.2.1, hs.2.2.2, hrange1, hrange2, hcongr⟩ <;>
      unfold Bullet.update <;>
      rw [hsteer] <;>
      simp only [bulletBoundsStep_x, bulletBoundsStep_y, bulletBoundsStep_vx,
        bulletBoundsStep_vy, bulletMoveStep_x, bulletMoveStep_y, bulletMoveStep_vx,
        bulletMoveStep_vy, bulletTrailStep_x, bulletTrailStep_y, bulletTrailStep_vx,
        bulletTrailStep_vy, bulletTrailStep_speed, bulletTrailStep_targetX,
        bulletTrailStep_targetY]
  · intro hg
    have h1 : (bulletTrailStep b).guided = false := by rw [bulletTrailStep_guided, hg]
    unfold Bullet.update
    rw [bulletSteerStep_not_guided ops dt _ h1]
    exact ⟨by rw [bulletBoundsStep_vx, bulletMoveStep_vx, bulletTrailStep_vx],
      by rw [bulletBoundsStep_vy, bulletMoveStep_vy, bulletTrailStep_vy],
      by rw [bulletBoundsStep_guided, bulletMoveStep_guided, bulletTrailStep_guided, hg]⟩
  · intro hg hempty
    simp [retargetBullet, hg, hempty]

/-- Closed witness for C8: a concrete guided bullet under the degenerate
math interpretation and dt = 1/60. -/
theorem c8_homing_projectile_witness :
    (0 : ℚ) ≤ 1 / 60 ∧
    (mkBullet ops0 10 10 0 "#FF3333" 0 true).speed = 264 ∧
    (Bullet.update ops0 (1 / 60) 400 400 (mkBullet ops0 10 10 0 "#FF3333" 0 true)).speed =
      (mkBullet ops0 10 10 0 "#FF3333" 0 true).speed ∧
    retargetBullet ops0 [] (mkBullet ops0 10 10 0 "#FF3333" 0 true) =
      { mkBullet ops0 10 10 0 "#FF3333" 0 true with guided := false } := by
  have h := c8_homing_projectile ops0 (1 / 60) 400 400
    (mkBullet ops0 10 10 0 "#FF3333" 0 true) [] (by norm_num)
  exact ⟨by norm_num, (h.1 10 10 0 "#FF3333" 0).1, h.2.1,
    h.2.2.2.2 (by with_unfolding_all decide) (by with_unfolding_all decide)⟩

/-! ### Claims C3 and C4: seed search order and tick budget -/

theorem find?_range_min {p : ℕ → Bool} : ∀ {n k : ℕ}, (List.range n).find? p = some k →
    p k = true ∧ k < n ∧ ∀ j, j < k → p j = false := by
  intro n
  induction n with
  | zero =>
    intro k h
    simp [List.range_zero] at h
  | succ m ih =>
    intro k h
    rw [List.range_succ, List.find?_append] at h
    cases hm : (List.range m).find? p with
    | some k2 =>
      rw [hm] at h
      have h2 : some k2 = some k := h
      cases h2
      obtain ⟨hp, hlt, hmin⟩ := ih hm
      exact ⟨hp, Nat.lt_succ_of_lt hlt, hmin⟩
    | none =>
      rw [hm] at h
      have h2 : List.find? p [m] = some k := h
      by_cases hpm : p m = true
      · rw [List.find?_cons_of_pos _ hpm] at h2
        cases h2
        refine ⟨hpm, Nat.lt_succ_self _, fun j hj => ?_⟩
        have := List.find?_eq_none.mp hm j (List.mem_range.mpr hj)
        simpa using this
      · rw [List.find?_cons_of_neg _ hpm] at h2
        simp at h2

theorem simPre_shift (ctx : SimCtx) (s : SimSt) :
    ∀ k, simPre ctx s (k + 1) = simPre ctx (simBump ctx.dt (tickCore ctx true s)) k := by
  intro k
  induction k with
  | zero => rfl
  | succ m ih =>
    have hstep : simPre ctx s (m + 1 + 1) =
        simBump ctx.dt (tickCore ctx true (simPre ctx s (m + 1))) := rfl
    rw [hstep, ih]
    rfl

theorem decisionAt_shift (ctx : SimCtx) (s : SimSt) (k : ℕ) :
    decisionAt ctx s (k + 1) = decisionAt ctx (simBump ctx.dt (tickCore ctx true s)) k := by
  unfold decisionAt
  rw [simPre_shift]

theorem simLoop_char (ctx : SimCtx) : ∀ (fuel : ℕ) (s : SimSt),
    simLoop ctx fuel s =
      (match (List.range fuel).find? (fun k => (decisionAt ctx s k).isSome) with
       | some k => (decisionAt ctx s k).getD (-1)
       | none => -1) := by
  intro fuel
  induction fuel with
  | zero => intro s; rfl
  | succ m ih =>
    intro s
    rw [simLoop_succ, List.range_succ_eq_map]
    have hd0 : decisionAt ctx s 0 = checkWinner (tickCore ctx true s).towers := rfl
    cases hd : checkWinner (tickCore ctx true s).towers with
    | some w =>
      have h0 : (fun k => (decisionAt ctx s k).isSome) 0 = true := by
        simp [hd0, hd]
      rw [@List.find?_cons_of_pos ℕ (fun k => (decisionAt ctx s k).isSome) 0
        (List.map Nat.succ (List.range m)) h0]
      simp [hd0, hd]
    | none =>
      have h0 : ¬ (fun k => (decisionAt ctx s k).isSome) 0 = true := by
        simp [hd0, hd]
      rw [@List.find?_cons_of_neg ℕ (fun k => (decisionAt ctx s k).isSome) 0
        (List.map Nat.succ (List.range m)) h0, List.find?_map]
      rw [ih (simBump ctx.dt (tickCore ctx true s))]
      have hps : ((fun k => (decisionAt ctx s k).isSome) ∘ Nat.succ) =
          (fun k => (decisionAt ctx (simBump ctx.dt (tickCore ctx true s)) k).isSome) := by
        funext k
        simp only [Function.comp]
        rw [show Nat.succ k = k + 1 from rfl, decisionAt_shift]
      rw [hps]
      cases hf : (List.range m).find?
          (fun k => (decisionAt ctx (simBump ctx.dt (tickCore ctx true s)) k).isSome) with
      | some k =>
        have hgd : decisionAt ctx s (k + 1) =
            decisionAt ctx (simBump ctx.dt (tickCore ctx true s)) k := decisionAt_shift ctx s k
        show (decisionAt ctx (simBump ctx.dt (tickCore ctx true s)) k).getD (-1) =
          (decisionAt ctx s (k + 1)).getD (-1)
        rw [hgd]
      | none => rfl

/-- Claim C4: runHeadlessSim executes at most maxTicks = 3600 fixed ticks
(the result is a function of the decisions of the first 3600 ticks; the
function is total, so it always terminates) and returns the UNDECIDED
result -1 when no tick within the budget decides a winner. -/
theorem c4_termination_bound (ops : MathOps) (noise : ℕ → ℚ)
    (snapshots : List TowerSnapshot) (seed : ℤ) (canvasW canvasH startElapsed : ℚ)
    (hlen : 2 ≤ snapshots.length) :
    runHeadlessSim ops noise snapshots seed canvasW canvasH startElapsed =
      (match firstDecisionTick ⟨ops, noise, 1 / 60, canvasW, canvasH, startElapsed⟩
          (initSim snapshots seed startElapsed) with
       | some k => (decisionAt ⟨ops, noise, 1 / 60, canvasW, canvasH, startElapsed⟩
          (initSim snapshots seed startElapsed) k).getD (-1)
       | none => -1) ∧
    (firstDecisionTick ⟨ops, noise, 1 / 60, canvasW, canvasH, startElapsed⟩
        (initSim snapshots seed startElapsed) = none →
      runHeadlessSim ops noise snapshots seed canvasW canvasH startElapsed = -1) := by
  have hmain : runHeadlessSim ops noise snapshots seed canvasW canvasH startElapsed =
      (match firstDecisionTick ⟨ops, noise, 1 / 60, canvasW, canvasH, startElapsed⟩
          (initSim snapshots seed startElapsed) with
       | some k => (decisionAt ⟨ops, noise, 1 / 60, canvasW, canvasH, startElapsed⟩
          (initSim snapshots seed startElapsed) k).getD (-1)
       | none => -1) := by
    unfold runHeadlessSim
    rw [if_neg (by omega)]
    rw [simLoop_char (⟨ops, noise, 1 / 60, canvasW, canvasH, startElapsed⟩ : SimCtx)
      maxTicks (initSim snapshots seed startElapsed)]
    unfold firstDecisionTick
    rfl
  refine ⟨hmain, fun hnone => ?_⟩
  rw [hmain, hnone]

/-- Closed witness for C4 at a concrete 2-tower snapshot. -/
theorem c4_termination_bound_witness :
    runHeadlessSim ops0 noise0 [snapA, snapB] 0 400 400 0 =
      (match firstDecisionTick ⟨ops0, noise0, 1 / 60, 400, 400, 0⟩
          (initSim [snapA, snapB] 0 0) with
       | some k => (decisionAt ⟨ops0, noise0, 1 / 60, 400, 400, 0⟩
          (initSim [snapA, snapB] 0 0) k).getD (-1)
       | none => -1) :=
  (c4_termination_bound ops0 noise0 [snapA, snapB] 0 400 400 0 (by decide)).1

/-- Claim C3: findWinningScenario probes seeds 0, 1, 2, ... strictly below
2000 in increasing order and returns the smallest seed whose headless
outcome equals the desired winner (so whenever a < b both match, the
result is at most a and itself matches with nothing smaller matching);
with no matching seed below 2000 it returns -1. -/
theorem c3_lowest_seed (ops : MathOps) (noise : ℕ → ℚ)
    (snapshots : List TowerSnapshot) (chosenWinnerId : ℤ)
    (canvasW canvasH startElapsed : ℚ) :
    ((∀ s : ℕ, s < 2000 →
        runHeadlessSim ops noise snapshots (s : ℤ) canvasW canvasH startElapsed ≠ chosenWinnerId) →
      findWinningScenario ops noise snapshots chosenWinnerId canvasW canvasH startElapsed = -1) ∧
    (∀ a : ℕ, a < 2000 →
      runHeadlessSim ops noise snapshots (a : ℤ) canvasW canvasH startElapsed = chosenWinnerId →
      ∃ s : ℕ, s ≤ a ∧
        findWinningScenario ops noise snapshots chosenWinnerId canvasW canvasH startElapsed = (s : ℤ) ∧
        runHeadlessSim ops noise snapshots (s : ℤ) canvasW canvasH startElapsed = chosenWinnerId ∧
        ∀ j : ℕ, j < s →
          runHeadlessSim ops noise snapshots (j : ℤ) canvasW canvasH startElapsed ≠ chosenWinnerId) := by
  constructor
  · intro hnone
    unfold findWinningScenario
    have hfind : (List.range 2000).find?
        (fun (seed : ℕ) => runHeadlessSim ops noise snapshots (seed : ℤ) canvasW canvasH startElapsed == chosenWinnerId) = none := by
      rw [List.find?_eq_none]
      intro x hx
      simp only [beq_iff_eq]
      exact hnone x (List.mem_range.mp hx)
    rw [hfind]
  · intro a ha hmatch
    cases hfind : (List.range 2000).find?
        (fun (seed : ℕ) => runHeadlessSim ops noise snapshots (seed : ℤ) canvasW canvasH startElapsed == chosenWinnerId) with
    | none =>
      exfalso
      have := List.find?_eq_none.mp hfind a (List.mem_range.mpr ha)
      simp only [beq_iff_eq] at this
      exact this hmatch
    | some s =>
      obtain ⟨hp, hlt, hmin⟩ := find?_range_min hfind
      simp only [beq_iff_eq] at hp
      refine ⟨s, ?_, ?_, hp, ?_⟩
      · by_contra hgt
        have hja := hmin a (by omega)
        rw [beq_eq_false_iff_ne] at hja
        exact hja hmatch
      · unfold findWinningScenario
        rw [hfind]
      · intro j hj
        have hje := hmin j hj
        rw [beq_eq_false_iff_ne] at hje
        exact hje

/-- Closed witness for C3: a 1-tower snapshot where seed 0 already
matches, so the oracle returns 0. -/
theorem c3_lowest_seed_witness :
    ∃ s : ℕ, s ≤ 0 ∧
      findWinningScenario ops0 noise0 [snapC] 5 400 400 0 = (s : ℤ) ∧
      runHeadlessSim ops0 noise0 [snapC] (s : ℤ) 400 400 0 = 5 ∧
      ∀ j : ℕ, j < s → runHeadlessSim ops0 noise0 [snapC] (j : ℤ) 400 400 0 ≠ 5 :=
  (c3_lowest_seed ops0 noise0 [snapC] 5 400 400 0).2 0 (by norm_num)
    (by with_unfolding_all decide)

/-! ### Observational-equivalence machinery for C1 and C2

NRel a b states that two towers differ at most in their cosmetic shake
offsets, and in spawnTime when the latter is dead (scale ≥ 1).  Every
battle-logic function is shown to map NRel-related inputs to NRel-related
outputs with equal observable results. -/

theorem NRel_refl (t : Tower) : NRel t t := rfl

theorem normT_id (t : Tower) : (normT t).id = t.id := rfl

theorem normT_x (t : Tower) : (normT t).x = t.x := rfl

theorem normT_y (t : Tower) : (normT t).y = t.y := rfl

theorem normT_color (t : Tower) : (normT t).color = t.color := rfl

theorem normT_hp (t : Tower) : (normT t).hp = t.hp := rfl

theorem normT_alive (t : Tower) : (normT t).alive = t.alive := rfl

theorem normT_invincible (t : Tower) : (normT t).invincible = t.invincible := rfl

theorem normT_scale (t : Tower) : (normT t).scale = t.scale := rfl

theorem normT_hasFinger (t : Tower) : (normT t).hasFinger = t.hasFinger := rfl

theorem normT_withdrawScale (t : Tower) : (normT t).withdrawScale = t.withdrawScale := rfl

theorem normT_withdrawing (t : Tower) : (normT t).withdrawing = t.withdrawing := rfl

theorem normT_cannons (t : Tower) : (normT t).cannons = t.cannons := rfl

theorem normT_cannonVisible (t : Tower) : (normT t).cannonVisible = t.cannonVisible := rfl

theorem normT_flashTimer (t : Tower) : (normT t).flashTimer = t.flashTimer := rfl

theorem normT_shakeTimer (t : Tower) : (normT t).shakeTimer = t.shakeTimer := rfl

theorem normT_lastDeathOrder (t : Tower) : (normT t).lastDeathOrder = t.lastDeathOrder := rfl

theorem normT_spawnTime (t : Tower) :
    (normT t).spawnTime = if t.scale < 1 then t.spawnTime else 0 := rfl

theorem NRel_fields {a b : Tower} (h : NRel a b) :
    a.id = b.id ∧ a.x = b.x ∧ a.y = b.y ∧ a.color = b.color ∧ a.hp = b.hp ∧
    a.alive = b.alive ∧ a.invincible = b.invincible ∧ a.scale = b.scale ∧
    a.hasFinger = b.hasFinger ∧ a.withdrawScale = b.withdrawScale ∧
    a.withdrawing = b.withdrawing ∧ a.cannons = b.cannons ∧
    a.cannonVisible = b.cannonVisible ∧ a.flashTimer = b.flashTimer ∧
    a.shakeTimer = b.shakeTimer ∧ a.lastDeathOrder = b.lastDeathOrder ∧
    (a.scale < 1 → a.spawnTime = b.spawnTime) := by
  have h2 : normT a = normT b := h
  have hsc : a.scale = b.scale := by rw [← normT_scale a, ← normT_scale b, h2]
  refine ⟨by rw [← normT_id a, ← normT_id b, h2], by rw [← normT_x a, ← normT_x b, h2],
    by rw [← normT_y a, ← normT_y b, h2], by rw [← normT_color a, ← normT_color b, h2],
    by rw [← normT_hp a, ← normT_hp b, h2], by rw [← normT_alive a, ← normT_alive b, h2],
    by rw [← normT_invincible a, ← normT_invincible b, h2], hsc,
    by rw [← normT_hasFinger a, ← normT_hasFinger b, h2],
    by rw [← normT_withdrawScale a, ← normT_withdrawScale b, h2],
    by rw [← normT_withdrawing a, ← normT_withdrawing b, h2],
    by rw [← normT_cannons a, ← normT_cannons b, h2],
    by rw [← normT_cannonVisible a, ← normT_cannonVisible b, h2],
    by rw [← normT_flashTimer a, ← normT_flashTimer b, h2],
    by rw [← normT_shakeTimer a, ← normT_shakeTimer b, h2],
    by rw [← normT_lastDeathOrder a, ← normT_lastDeathOrder b, h2], ?_⟩
  intro hlt
  have hsp : (if a.scale < 1 then a.spawnTime else 0) =
      (if b.scale < 1 then b.spawnTime else 0) := by
    rw [← normT_spawnTime a, ← normT_spawnTime b, h2]
  rw [if_pos hlt, if_pos (hsc ▸ hlt)] at hsp
  exact hsp

theorem NRel_of_fields {a b : Tower}
    (hid : a.id = b.id) (hx : a.x = b.x) (hy : a.y = b.y) (hc : a.color = b.color)
    (hhp : a.hp = b.hp) (hal : a.alive = b.alive) (hinv : a.invincible = b.invincible)
    (hsc : a.scale = b.scale) (hhf : a.hasFinger = b.hasFinger)
    (hws : a.withdrawScale = b.withdrawScale) (hwd : a.withdrawing = b.withdrawing)
    (hcn : a.cannons = b.cannons) (hcv : a.cannonVisible = b.cannonVisible)
    (hft : a.flashTimer = b.flashTimer) (hst : a.shakeTimer = b.shakeTimer)
    (hldo : a.lastDeathOrder = b.lastDeathOrder)
    (hsp : a.scale < 1 → a.spawnTime = b.spawnTime) : NRel a b := by
  unfold NRel normT
  cases a
  cases b
  simp only at hid hx hy hc hhp hal hinv hsc hhf hws hwd hcn hcv hft hst hldo hsp
  subst hid hx hy hc hhp hal hinv hsc hhf hws hwd hcn hcv hft hst hldo
  simp only [Tower.mk.injEq, and_true, true_and, and_self]
  split_ifs with hlt
  · simp [hsp hlt]
  · simp

theorem hit_rel {a b : Tower} (h : NRel a b) :
    NRel (Tower.hit a).1 (Tower.hit b).1 ∧ (Tower.hit a).2 = (Tower.hit b).2 := by
  obtain ⟨hid, hx, hy, hc, hhp, hal, hinv, hsc, hhf, hws, hwd, hcn, hcv, hft, hst, hldo, hsp⟩ :=
    NRel_fields h
  unfold Tower.hit
  rw [hinv, hhp]
  by_cases hi : b.invincible
  · rw [if_pos hi, if_pos hi]
    exact ⟨h, rfl⟩
  · rw [if_neg hi, if_neg hi]
    dsimp only
    by_cases hz : b.hp - 1 ≤ 0
    · rw [if_pos hz, if_pos hz]
      exact ⟨NRel_of_fields hid hx hy hc rfl rfl rfl hsc hhf hws hwd hcn hcv rfl rfl hldo hsp,
        rfl⟩
    · rw [if_neg hz, if_neg hz]
      exact ⟨NRel_of_fields hid hx hy hc rfl hal rfl hsc hhf hws hwd hcn hcv rfl rfl hldo hsp,
        rfl⟩

theorem addCannon_rel {a b : Tower} (h : NRel a b) (e : ℚ) (p : ℕ) :
    NRel (Tower.addCannon e p a).1 (Tower.addCannon e p b).1 ∧
    (Tower.addCannon e p a).2 = (Tower.addCannon e p b).2 := by
  obtain ⟨hid, hx, hy, hc, hhp, hal, hinv, hsc, hhf, hws, hwd, hcn, hcv, hft, hst, hldo, hsp⟩ :=
    NRel_fields h
  unfold Tower.addCannon
  rw [hcn]
  cases hgl : b.cannons.getLast? with
  | none =>
    dsimp only [prngRange, mulberry32]
    exact ⟨NRel_of_fields hid hx hy hc hhp hal hinv hsc hhf hws hwd rfl hcv hft hst hldo hsp,
      rfl⟩
  | some prev =>
    dsimp only [prngRange, mulberry32]
    exact ⟨NRel_of_fields hid hx hy hc hhp hal hinv hsc hhf hws hwd rfl hcv hft hst hldo hsp,
      rfl⟩

theorem startBattle_rel {a b : Tower} (h : NRel a b) (e : ℚ) (p : ℕ) :
    NRel (Tower.startBattle e p a).1 (Tower.startBattle e p b).1 ∧
    (Tower.startBattle e p a).2 = (Tower.startBattle e p b).2 := by
  obtain ⟨hid, hx, hy, hc, hhp, hal, hinv, hsc, hhf, hws, hwd, hcn, hcv, hft, hst, hldo, hsp⟩ :=
    NRel_fields h
  unfold Tower.startBattle
  exact @addCannon_rel { a with cannonVisible := true } { b with cannonVisible := true }
    (@NRel_of_fields { a with cannonVisible := true } { b with cannonVisible := true }
      hid hx hy hc hhp hal hinv hsc hhf hws hwd hcn rfl hft hst hldo hsp) e p

theorem stepSpawnScale_rel {a b : Tower} (h : NRel a b) (e : ℚ) :
    NRel (stepSpawnScale e a) (stepSpawnScale e b) := by
  obtain ⟨hid, hx, hy, hc, hhp, hal, hinv, hsc, hhf, hws, hwd, hcn, hcv, hft, hst, hldo, hsp⟩ :=
    NRel_fields h
  unfold stepSpawnScale
  rw [hsc]
  by_cases hlt : b.scale < 1
  · rw [if_pos hlt, if_pos hlt]
    have hspe : a.spawnTime = b.spawnTime := hsp (hsc ▸ hlt)
    rw [hspe]
    exact NRel_of_fields hid hx hy hc hhp hal hinv rfl hhf hws hwd hcn hcv hft hst hldo
      (fun _ => rfl)
  · rw [if_neg hlt, if_neg hlt]
    exact h

theorem stepWithdraw_rel {a b : Tower} (h : NRel a b) (dt : ℚ) :
    NRel (stepWithdraw dt a) (stepWithdraw dt b) := by
  obtain ⟨hid, hx, hy, hc, hhp, hal, hinv, hsc, hhf, hws, hwd, hcn, hcv, hft, hst, hldo, hsp⟩ :=
    NRel_fields h
  unfold stepWithdraw
  rw [hwd, hws]
  dsimp only
  split_ifs with h1 h2 h3
  · exact NRel_of_fields hid hx hy hc hhp rfl hinv hsc hhf rfl rfl hcn hcv hft hst hldo hsp
  · exact NRel_of_fields hid hx hy hc hhp hal hinv hsc hhf rfl rfl hcn hcv hft hst hldo hsp
  · exact NRel_of_fields hid hx hy hc hhp hal hinv hsc hhf rfl rfl hcn hcv hft hst hldo hsp
  · exact h

theorem stepFlash_rel {a b : Tower} (h : NRel a b) (dt : ℚ) :
    NRel (stepFlash dt a) (stepFlash dt b) := by
  obtain ⟨hid, hx, hy, hc, hhp, hal, hinv, hsc, hhf, hws, hwd, hcn, hcv, hft, hst, hldo, hsp⟩ :=
    NRel_fields h
  unfold stepFlash
  rw [hft]
  split_ifs with h1
  · exact NRel_of_fields hid hx hy hc hhp hal hinv hsc hhf hws hwd hcn hcv rfl hst hldo hsp
  · exact h

theorem stepShake_rel {a b : Tower} (h : NRel a b) (n1 n2 : ℕ → ℚ) (i1 i2 : ℕ) (dt : ℚ) :
    NRel (stepShake n1 i1 dt a).1 (stepShake n2 i2 dt b).1 := by
  obtain ⟨hid, hx, hy, hc, hhp, hal, hinv, hsc, hhf, hws, hwd, hcn, hcv, hft, hst, hldo, hsp⟩ :=
    NRel_fields h
  unfold stepShake
  rw [hst]
  split_ifs with h1
  · exact NRel_of_fields hid hx hy hc hhp hal hinv hsc hhf hws hwd hcn hcv hft rfl hldo hsp
  · exact NRel_of_fields hid hx hy hc hhp hal hinv hsc hhf hws hwd hcn hcv hft rfl hldo hsp

theorem stepCannon_congr (ops : MathOps) (dt e : ℚ) {t1 t2 : Tower}
    (hx : t1.x = t2.x) (hy : t1.y = t2.y) (hws : t1.withdrawScale = t2.withdrawScale)
    (c : Cannon) : stepCannon ops dt e t1 c = stepCannon ops dt e t2 c := by
  unfold stepCannon
  rw [hx, hy, hws]

theorem foldl_fun_congr {α β : Type} {f g : β → α → β} (hfg : ∀ b a, f b a = g b a) :
    ∀ (l : List α) (init : β), l.foldl f init = l.foldl g init := by
  intro l
  induction l with
  | nil => intro init; rfl
  | cons hd tl ih =>
    intro init
    simp only [List.foldl_cons, hfg, ih]

theorem update_rel {a b : Tower} (h : NRel a b) (ops : MathOps) (n1 n2 : ℕ → ℚ)
    (i1 i2 : ℕ) (dt e : ℚ) :
    NRel (Tower.update ops n1 i1 dt e a).1 (Tower.update ops n2 i2 dt e b).1 ∧
    (Tower.update ops n1 i1 dt e a).2.1 = (Tower.update ops n2 i2 dt e b).2.1 := by
  have h4 : NRel (stepShake n1 i1 dt (stepFlash dt (stepWithdraw dt (stepSpawnScale e a)))).1
      (stepShake n2 i2 dt (stepFlash dt (stepWithdraw dt (stepSpawnScale e b)))).1 :=
    stepShake_rel (stepFlash_rel (stepWithdraw_rel (stepSpawnScale_rel h e) dt) dt) n1 n2 i1 i2 dt
  obtain ⟨hid, hx, hy, hc, hhp, hal, hinv, hsc, hhf, hws, hwd, hcn, hcv, hft, hst, hldo, hsp⟩ :=
    NRel_fields h4
  unfold Tower.update
  dsimp only
  have hfold :
      (stepShake n1 i1 dt (stepFlash dt (stepWithdraw dt (stepSpawnScale e a)))).1.cannons.foldl
        (fun (acc : List Cannon × List Fire) c =>
          (acc.1 ++ [(stepCannon ops dt e
            (stepShake n1 i1 dt (stepFlash dt (stepWithdraw dt (stepSpawnScale e a)))).1 c).1],
           acc.2 ++ (stepCannon ops dt e
            (stepShake n1 i1 dt (stepFlash dt (stepWithdraw dt (stepSpawnScale e a)))).1 c).2.toList))
        ([], []) =
      (stepShake n2 i2 dt (stepFlash dt (stepWithdraw dt (stepSpawnScale e b)))).1.cannons.foldl
        (fun (acc : List Cannon × List Fire) c =>
          (acc.1 ++ [(stepCannon ops dt e
            (stepShake n2 i2 dt (stepFlash dt (stepWithdraw dt (stepSpawnScale e b)))).1 c).1],
           acc.2 ++ (stepCannon ops dt e
            (stepShake n2 i2 dt (stepFlash dt (stepWithdraw dt (stepSpawnScale e b)))).1 c).2.toList))
        ([], []) := by
    rw [hcn]
    apply foldl_fun_congr
    intro acc c
    rw [stepCannon_congr ops dt e hx hy hws]
  rw [hfold]
  exact ⟨NRel_of_fields hid hx hy hc hhp hal hinv hsc hhf hws hwd rfl hcv hft hst hldo hsp, rfl⟩

theorem NRel_refl2 (t : Tower) : NRel t t := rfl

theorem forall2_NRel_refl (l : List Tower) : List.Forall₂ NRel l l := by
  induction l with
  | nil => exact List.Forall₂.nil
  | cons hd tl ih => exact List.Forall₂.cons (NRel_refl2 hd) ih

theorem foldl_rel {α β : Type} {R : α → α → Prop} {S : β → β → Prop} {f1 f2 : β → α → β}
    (hf : ∀ acc1 acc2 a b, S acc1 acc2 → R a b → S (f1 acc1 a) (f2 acc2 b)) :
    ∀ {l1 l2 : List α}, List.Forall₂ R l1 l2 → ∀ {acc1 acc2 : β}, S acc1 acc2 →
      S (l1.foldl f1 acc1) (l2.foldl f2 acc2) := by
  intro l1 l2 h
  induction h with
  | nil => intro acc1 acc2 hs; exact hs
  | cons hab htl ih =>
    intro acc1 acc2 hs
    simp only [List.foldl_cons]
    exact ih (hf _ _ _ _ hs hab)

theorem foldl_rel_eq {α β : Type} {R : α → α → Prop} {f1 f2 : β → α → β}
    (hf : ∀ acc a b, R a b → f1 acc a = f2 acc b) :
    ∀ {l1 l2 : List α}, List.Forall₂ R l1 l2 → ∀ acc, l1.foldl f1 acc = l2.foldl f2 acc := by
  intro l1 l2 h
  induction h with
  | nil => intro acc; rfl
  | cons hab htl ih =>
    intro acc
    simp only [List.foldl_cons]
    rw [hf acc _ _ hab]
    exact ih _

theorem forall2_filter {α : Type} {R : α → α → Prop} {q : α → Bool}
    (hq : ∀ a b, R a b → q a = q b) :
    ∀ {l1 l2 : List α}, List.Forall₂ R l1 l2 →
      List.Forall₂ R (l1.filter q) (l2.filter q) := by
  intro l1 l2 h
  induction h with
  | nil => exact List.Forall₂.nil
  | cons hab htl ih =>
    rename_i a b ta tb
    simp only [List.filter_cons]
    rw [hq a b hab]
    by_cases hb : q b
    · rw [if_pos hb, if_pos hb]
      exact List.Forall₂.cons hab ih
    · rw [if_neg hb, if_neg hb]
      exact ih

theorem forall2_getD {α : Type} {R : α → α → Prop} :
    ∀ {l1 l2 : List α}, List.Forall₂ R l1 l2 → ∀ (d1 d2 : α), R d1 d2 → ∀ (i : ℕ),
      R (l1.getD i d1) (l2.getD i d2) := by
  intro l1 l2 h
  induction h with
  | nil => intro d1 d2 hd i; exact hd
  | cons hab htl ih =>
    intro d1 d2 hd i
    cases i with
    | zero => exact hab
    | succ j => exact ih d1 d2 hd j

theorem map_eq_of_forall2 {α β : Type} {R : α → α → Prop} {f g : α → β}
    (hfg : ∀ a b, R a b → f a = g b) :
    ∀ {l1 l2 : List α}, List.Forall₂ R l1 l2 → l1.map f = l2.map g := by
  intro l1 l2 h
  induction h with
  | nil => rfl
  | cons hab htl ih => simp only [List.map_cons, hfg _ _ hab, ih]

theorem forall2_append {α : Type} {R : α → α → Prop} {l1 l2 u1 u2 : List α}
    (h : List.Forall₂ R l1 l2) (h2 : List.Forall₂ R u1 u2) :
    List.Forall₂ R (l1 ++ u1) (l2 ++ u2) := by
  induction h with
  | nil => exact h2
  | cons hab htl ih => exact List.Forall₂.cons hab ih

theorem NRel_set_ldo {a b : Tower} (h : NRel a b) (v : ℤ) :
    NRel { a with lastDeathOrder := v } { b with lastDeathOrder := v } := by
  obtain ⟨hid, hx, hy, hc, hhp, hal, hinv, hsc, hhf, hws, hwd, hcn, hcv, hft, hst, hldo, hsp⟩ :=
    NRel_fields h
  exact NRel_of_fields hid hx hy hc hhp hal hinv hsc hhf hws hwd hcn hcv hft hst rfl hsp

theorem towerObs_rel {a b : Tower} (h : NRel a b) : towerObs a = towerObs b := by
  obtain ⟨hid, hx, hy, hc, hhp, hal, hinv, hsc, hhf, hws, hwd, hcn, hcv, hft, hst, hldo, hsp⟩ :=
    NRel_fields h
  unfold towerObs
  rw [hid, hx, hy, hhp, hal]

theorem pickFold_rel : ∀ {l1 l2 : List Tower}, List.Forall₂ NRel l1 l2 →
    ∀ {a b : Tower}, NRel a b →
    NRel (l1.foldl (fun a b => if b.lastDeathOrder < a.lastDeathOrder then a else b) a)
      (l2.foldl (fun a b => if b.lastDeathOrder < a.lastDeathOrder then a else b) b) := by
  intro l1 l2 h a b hab
  exact @foldl_rel Tower Tower NRel NRel
    (fun a b => if b.lastDeathOrder < a.lastDeathOrder then a else b)
    (fun a b => if b.lastDeathOrder < a.lastDeathOrder then a else b)
    (fun acc1 acc2 a b hacc hab2 => by
      have hldo : a.lastDeathOrder = b.lastDeathOrder :=
        (NRel_fields hab2).2.2.2.2.2.2.2.2.2.2.2.2.2.2.2.1
      have hldo2 : acc1.lastDeathOrder = acc2.lastDeathOrder :=
        (NRel_fields hacc).2.2.2.2.2.2.2.2.2.2.2.2.2.2.2.1
      dsimp only
      rw [hldo, hldo2]
      by_cases hcmp : b.lastDeathOrder < acc2.lastDeathOrder
      · rw [if_pos hcmp, if_pos hcmp]; exact hacc
      · rw [if_neg hcmp, if_neg hcmp]; exact hab2)
    l1 l2 h a b hab

theorem checkWinner_rel {l1 l2 : List Tower} (h : List.Forall₂ NRel l1 l2) :
    checkWinner l1 = checkWinner l2 := by
  unfold checkWinner
  have hfil : List.Forall₂ NRel (l1.filter fun t => t.alive) (l2.filter fun t => t.alive) :=
    @forall2_filter Tower NRel (fun t => t.alive)
      (fun a b hab => (NRel_fields hab).2.2.2.2.2.1) l1 l2 h
  have hlen : (l1.filter fun t => t.alive).length = (l2.filter fun t => t.alive).length :=
    hfil.length_eq
  dsimp only
  rw [hlen]
  by_cases hle : (List.filter (fun t => t.alive) l2).length ≤ 1
  · rw [if_pos hle, if_pos hle]
    cases hF1 : List.filter (fun t => t.alive) l1 with
    | nil =>
      rw [hF1] at hfil
      rw [List.forall₂_nil_left_iff.mp hfil]
      cases h with
      | nil => rfl
      | cons hab htl => exact congrArg some (NRel_fields (pickFold_rel htl hab)).1
    | cons e r =>
      rw [hF1] at hfil
      obtain ⟨e2, r2, he, hr, hE2⟩ := List.forall₂_cons_left_iff.mp hfil
      rw [hE2]
      cases r with
      | nil =>
        rw [List.forall₂_nil_left_iff.mp hr]
        exact congrArg some (NRel_fields he).1
      | cons ex rx =>
        obtain ⟨e2x, r2x, hex, hrx, hE2x⟩ := List.forall₂_cons_left_iff.mp hr
        rw [hE2x]
        cases h with
        | nil => rfl
        | cons hab htl => exact congrArg some (NRel_fields (pickFold_rel htl hab)).1
  · rw [if_neg hle, if_neg hle]

theorem escalateStep_rel (e : ℚ) {acc1 acc2 : List Tower × ℕ}
    (hacc : List.Forall₂ NRel acc1.1 acc2.1 ∧ acc1.2 = acc2.2) {a b : Tower}
    (hab : NRel a b) :
    List.Forall₂ NRel (escalateStep e acc1 a).1 (escalateStep e acc2 b).1 ∧
    (escalateStep e acc1 a).2 = (escalateStep e acc2 b).2 := by
  obtain ⟨hid, hx, hy, hc, hhp, hal, hinv, hsc, hhf, hws, hwd, hcn, hcv, hft, hst, hldo, hsp⟩ :=
    NRel_fields hab
  unfold escalateStep
  rw [hal, hws, hacc.2]
  by_cases hcond : b.alive = true ∧ 1 / 2 < b.withdrawScale
  · rw [if_pos hcond, if_pos hcond]
    obtain ⟨hr, hp⟩ := addCannon_rel hab e acc2.2
    exact ⟨forall2_append hacc.1 (List.Forall₂.cons hr List.Forall₂.nil), hp⟩
  · rw [if_neg hcond, if_neg hcond]
    exact ⟨forall2_append hacc.1 (List.Forall₂.cons hab List.Forall₂.nil), rfl⟩

theorem escalateTowers_rel (e : ℚ) {l1 l2 : List Tower}
    (h : List.Forall₂ NRel l1 l2) (p : ℕ) :
    List.Forall₂ NRel (escalateTowers e l1 p).1 (escalateTowers e l2 p).1 ∧
    (escalateTowers e l1 p).2 = (escalateTowers e l2 p).2 := by
  unfold escalateTowers
  exact @foldl_rel Tower (List Tower × ℕ) NRel
    (fun x y => List.Forall₂ NRel x.1 y.1 ∧ x.2 = y.2)
    (escalateStep e) (escalateStep e)
    (fun acc1 acc2 a b hacc hab => escalateStep_rel e hacc hab)
    l1 l2 h ([], p) ([], p) ⟨List.Forall₂.nil, rfl⟩

theorem fireGuidedMissileT_rel (ops : MathOps) {ts1 ts2 : List Tower}
    (hts : List.Forall₂ NRel ts1 ts2) {t1 t2 : Tower} (ht : NRel t1 t2)
    (p : ℕ) (bs : List Bullet) :
    fireGuidedMissileT ops ts1 t1 p bs = fireGuidedMissileT ops ts2 t2 p bs := by
  obtain ⟨hid, hx, hy, hc, hhp, hal, hinv, hsc, hhf, hws, hwd, hcn, hcv, hft, hst, hldo, hsp⟩ :=
    NRel_fields ht
  unfold fireGuidedMissileT
  rw [hid, hx, hy, hc, hcn]
  have hen : List.Forall₂ NRel
      (ts1.filter fun u => u.alive && (u.id != t2.id) && !u.invincible)
      (ts2.filter fun u => u.alive && (u.id != t2.id) && !u.invincible) :=
    @forall2_filter Tower NRel (fun u => u.alive && (u.id != t2.id) && !u.invincible)
      (fun a b hab => by
        have f := NRel_fields hab
        dsimp only
        rw [f.1, f.2.2.2.2.2.1, f.2.2.2.2.2.2.1]) ts1 ts2 hts
  cases hF1 : ts1.filter fun u => u.alive && (u.id != t2.id) && !u.invincible with
  | nil =>
    rw [hF1] at hen
    rw [List.forall₂_nil_left_iff.mp hen]
  | cons e r =>
    rw [hF1] at hen
    obtain ⟨e2, r2, he, hr, hE2⟩ := List.forall₂_cons_left_iff.mp hen
    rw [hE2]
    cases hmp : mulberry32 p with
    | mk p1 r1 =>
      dsimp only
      have hlen2 : (e :: r).length = (e2 :: r2).length :=
        (List.Forall₂.cons he hr).length_eq
      rw [hlen2]
      have htar := forall2_getD (List.Forall₂.cons he hr) e e2 he
        (⌊r1 * ((e2 :: r2).length : ℚ)⌋).toNat
      rw [(NRel_fields htar).2.1, (NRel_fields htar).2.2.1]

theorem volleyFire_rel (ops : MathOps) {ts1 ts2 : List Tower}
    (hts : List.Forall₂ NRel ts1 ts2) (p : ℕ) (bs : List Bullet) :
    volleyFire ops ts1 p bs = volleyFire ops ts2 p bs := by
  unfold volleyFire
  exact @foldl_rel_eq Tower (ℕ × List Bullet) NRel (volleyStep ops ts1) (volleyStep ops ts2)
    (fun acc a b hab => by
      unfold volleyStep
      have f := NRel_fields hab
      rw [f.2.2.2.2.2.1, f.2.2.2.2.2.2.2.2.2.1]
      by_cases hcond : b.alive = true ∧ 1 / 2 < b.withdrawScale
      · rw [if_pos hcond, if_pos hcond]
        exact fireGuidedMissileT_rel ops hts hab acc.1 acc.2
      · rw [if_neg hcond, if_neg hcond])
    ts1 ts2 hts (p, bs)

theorem retargetBullet_rel (ops : MathOps) {ts1 ts2 : List Tower}
    (hts : List.Forall₂ NRel ts1 ts2) (b : Bullet) :
    retargetBullet ops ts1 b = retargetBullet ops ts2 b := by
  unfold retargetBullet
  by_cases hg : b.guided
  · rw [if_pos hg, if_pos hg]
    have hen : List.Forall₂ NRel
        (ts1.filter fun u => u.alive && (u.id != b.sourceId) && !u.invincible)
        (ts2.filter fun u => u.alive && (u.id != b.sourceId) && !u.invincible) :=
      @forall2_filter Tower NRel (fun u => u.alive && (u.id != b.sourceId) && !u.invincible)
        (fun a c hac => by
          have f := NRel_fields hac
          dsimp only
          rw [f.1, f.2.2.2.2.2.1, f.2.2.2.2.2.2.1]) ts1 ts2 hts
    cases hF1 : ts1.filter fun u => u.alive && (u.id != b.sourceId) && !u.invincible with
    | nil =>
      rw [hF1] at hen
      rw [List.forall₂_nil_left_iff.mp hen]
    | cons e r =>
      rw [hF1] at hen
      obtain ⟨e2, r2, he, hr, hE2⟩ := List.forall₂_cons_left_iff.mp hen
      rw [hE2]
      dsimp only
      have hnb := @foldl_rel Tower (Tower × ℚ) NRel
        (fun x y => NRel x.1 y.1 ∧ x.2 = y.2)
        (nearestStep ops b.x b.y) (nearestStep ops b.x b.y)
        (fun acc1 acc2 a c hacc hac => by
          unfold nearestStep
          have f := NRel_fields hac
          dsimp only
          rw [f.2.1, f.2.2.1, hacc.2]
          by_cases hcmp : dist ops b.x b.y c.x c.y < acc2.2
          · rw [if_pos hcmp, if_pos hcmp]; exact ⟨hac, rfl⟩
          · rw [if_neg hcmp, if_neg hcmp]; exact hacc)
        r r2 hr (e, dist ops b.x b.y e.x e.y) (e2, dist ops b.x b.y e2.x e2.y)
        ⟨he, by rw [(NRel_fields he).2.1, (NRel_fields he).2.2.1]⟩
      rw [(NRel_fields hnb.1).2.1, (NRel_fields hnb.1).2.2.1]
  · rw [if_neg hg, if_neg hg]

theorem collideScan_rel (ops : MathOps) (b : Bullet) (dc : ℤ) :
    ∀ {l1 l2 : List Tower}, List.Forall₂ NRel l1 l2 →
      List.Forall₂ NRel (collideScan ops b dc l1).1 (collideScan ops b dc l2).1 ∧
      (collideScan ops b dc l1).2.1 = (collideScan ops b dc l2).2.1 ∧
      (collideScan ops b dc l1).2.2 = (collideScan ops b dc l2).2.2 := by
  intro l1 l2 h
  induction h with
  | nil => exact ⟨List.Forall₂.nil, rfl, rfl⟩
  | cons hab htl ih =>
    rename_i a c ta tb
    obtain ⟨hid, hx, hy, hc, hhp, hal, hinv, hsc, hhf, hws, hwd, hcn, hcv, hft, hst, hldo, hsp⟩ :=
      NRel_fields hab
    simp only [collideScan]
    rw [hal, hid, hinv, hws, hx, hy, hsc]
    by_cases h1 : c.alive = false ∨ c.id = b.sourceId
    · rw [if_pos h1, if_pos h1]
      exact ⟨List.Forall₂.cons hab ih.1, ih.2.1, ih.2.2⟩
    · rw [if_neg h1, if_neg h1]
      by_cases h2 : c.invincible
      · rw [if_pos h2, if_pos h2]
        exact ⟨List.Forall₂.cons hab ih.1, ih.2.1, ih.2.2⟩
      · rw [if_neg h2, if_neg h2]
        by_cases h3 : c.withdrawScale < 3 / 10
        · rw [if_pos h3, if_pos h3]
          exact ⟨List.Forall₂.cons hab ih.1, ih.2.1, ih.2.2⟩
        · rw [if_neg h3, if_neg h3]
          by_cases h4 : dist ops b.x b.y c.x c.y <
              towerRadius * c.scale * c.withdrawScale + b.radius
          · rw [if_pos h4, if_pos h4]
            obtain ⟨hh1, hh2⟩ := hit_rel hab
            rw [hh2, (NRel_fields hh1).2.2.2.2.2.1]
            by_cases h5 : (Tower.hit c).2
            · rw [if_pos h5, if_pos h5]
              by_cases h6 : (Tower.hit c).1.alive = false
              · rw [if_pos h6, if_pos h6]
                obtain ⟨kid, kx, ky, kc2, khp, kal, kinv, ksc, khf, kws, kwd, kcn, kcv,
                  kft, kst, kldo, ksp⟩ := NRel_fields hh1
                exact ⟨List.Forall₂.cons
                  (NRel_of_fields kid kx ky kc2 khp rfl kinv ksc khf kws kwd kcn kcv
                    kft kst rfl ksp) htl, rfl, rfl⟩
              · rw [if_neg h6, if_neg h6]
                exact ⟨List.Forall₂.cons hh1 htl, rfl, rfl⟩
            · rw [if_neg h5, if_neg h5]
              exact ⟨List.Forall₂.cons hh1 htl, rfl, rfl⟩
          · rw [if_neg h4, if_neg h4]
            exact ⟨List.Forall₂.cons hab ih.1, ih.2.1, ih.2.2⟩

theorem bulletsGoRev_rel (ops : MathOps) (dt cw ch : ℚ) :
    ∀ (bs : List Bullet) {ts1 ts2 : List Tower}, List.Forall₂ NRel ts1 ts2 → ∀ (dc : ℤ),
      (bulletsGoRev ops dt cw ch bs ts1 dc).1 = (bulletsGoRev ops dt cw ch bs ts2 dc).1 ∧
      List.Forall₂ NRel (bulletsGoRev ops dt cw ch bs ts1 dc).2.1
        (bulletsGoRev ops dt cw ch bs ts2 dc).2.1 ∧
      (bulletsGoRev ops dt cw ch bs ts1 dc).2.2 = (bulletsGoRev ops dt cw ch bs ts2 dc).2.2 := by
  intro bs
  induction bs with
  | nil => intro ts1 ts2 h dc; exact ⟨rfl, h, rfl⟩
  | cons b rest ih =>
    intro ts1 ts2 h dc
    simp only [bulletsGoRev]
    rw [retargetBullet_rel ops h b]
    by_cases hdead : (Bullet.update ops dt cw ch (retargetBullet ops ts2 b)).alive = false
    · rw [if_pos hdead, if_pos hdead]
      exact ih h dc
    · rw [if_neg hdead, if_neg hdead]
      have hcs := collideScan_rel ops (Bullet.update ops dt cw ch (retargetBullet ops ts2 b)) dc h
      rw [hcs.2.1, hcs.2.2]
      have hr := ih hcs.1
        (collideScan ops (Bullet.update ops dt cw ch (retargetBullet ops ts2 b)) dc ts2).2.1
      by_cases hflag :
          (collideScan ops (Bullet.update ops dt cw ch (retargetBullet ops ts2 b)) dc ts2).2.2
      · rw [if_pos hflag, if_pos hflag]
        exact hr
      · rw [if_neg hflag, if_neg hflag]
        exact ⟨by rw [hr.1], hr.2.1, hr.2.2⟩

theorem bulletsPhaseL_rel (ops : MathOps) (dt cw ch : ℚ) (bs : List Bullet)
    {ts1 ts2 : List Tower} (h : List.Forall₂ NRel ts1 ts2) (dc : ℤ) :
    (bulletsPhaseL ops dt cw ch bs ts1 dc).1 = (bulletsPhaseL ops dt cw ch bs ts2 dc).1 ∧
    List.Forall₂ NRel (bulletsPhaseL ops dt cw ch bs ts1 dc).2.1
      (bulletsPhaseL ops dt cw ch bs ts2 dc).2.1 ∧
    (bulletsPhaseL ops dt cw ch bs ts1 dc).2.2 = (bulletsPhaseL ops dt cw ch bs ts2 dc).2.2 :=
  bulletsGoRev_rel ops dt cw ch bs.reverse h dc

theorem towersLoopStep_rel (ops : MathOps) (n1 n2 : ℕ → ℚ) (dt e : ℚ) (pf : Bool)
    {acc1 acc2 : List Tower × ℤ × List Bullet × ℕ}
    (hacc : List.Forall₂ NRel acc1.1 acc2.1 ∧ acc1.2.1 = acc2.2.1 ∧ acc1.2.2.1 = acc2.2.2.1)
    {a b : Tower} (hab : NRel a b) :
    List.Forall₂ NRel (towersLoopStep ops n1 dt e pf acc1 a).1
      (towersLoopStep ops n2 dt e pf acc2 b).1 ∧
    (towersLoopStep ops n1 dt e pf acc1 a).2.1 =
      (towersLoopStep ops n2 dt e pf acc2 b).2.1 ∧
    (towersLoopStep ops n1 dt e pf acc1 a).2.2.1 =
      (towersLoopStep ops n2 dt e pf acc2 b).2.2.1 := by
  obtain ⟨hid, hx, hy, hc, hhp, hal, hinv, hsc, hhf, hws, hwd, hcn, hcv, hft, hst, hldo, hsp⟩ :=
    NRel_fields hab
  obtain ⟨hts, hdc, hbs⟩ := hacc
  unfold towersLoopStep
  rw [hal, hdc, hbs]
  by_cases h1 : b.alive = false
  · rw [if_pos h1, if_pos h1]
    exact ⟨forall2_append hts (List.Forall₂.cons hab List.Forall₂.nil), rfl, rfl⟩
  · rw [if_neg h1, if_neg h1]
    have hu := update_rel hab ops n1 n2 acc1.2.2.2 acc2.2.2.2 dt e
    obtain ⟨kid, kx, ky, kc, khp, kal, kinv, ksc, khf, kws, kwd, kcn, kcv, kft, kst, kldo,
      ksp⟩ := NRel_fields hu.1
    dsimp only
    rw [hu.2, kal]
    by_cases h2 : (Tower.update ops n2 acc2.2.2.2 dt e b).1.alive = false
    · rw [if_pos h2, if_pos h2]
      dsimp only
      rw [kc, kid]
      exact ⟨forall2_append hts (List.Forall₂.cons
        (NRel_of_fields rfl kx ky rfl khp rfl kinv ksc khf kws kwd kcn kcv kft kst rfl ksp)
        List.Forall₂.nil), rfl, rfl⟩
    · rw [if_neg h2, if_neg h2]
      dsimp only
      rw [kc, kid]
      exact ⟨forall2_append hts (List.Forall₂.cons hu.1 List.Forall₂.nil), rfl, rfl⟩

theorem updateTowersLoop_rel (ops : MathOps) (n1 n2 : ℕ → ℚ) (dt e : ℚ) (pf : Bool)
    {l1 l2 : List Tower} (h : List.Forall₂ NRel l1 l2) (dc0 : ℤ) (bs0 : List Bullet)
    (i1 i2 : ℕ) :
    List.Forall₂ NRel (updateTowersLoop ops n1 dt e pf l1 dc0 bs0 i1).1
      (updateTowersLoop ops n2 dt e pf l2 dc0 bs0 i2).1 ∧
    (updateTowersLoop ops n1 dt e pf l1 dc0 bs0 i1).2.1 =
      (updateTowersLoop ops n2 dt e pf l2 dc0 bs0 i2).2.1 ∧
    (updateTowersLoop ops n1 dt e pf l1 dc0 bs0 i1).2.2.1 =
      (updateTowersLoop ops n2 dt e pf l2 dc0 bs0 i2).2.2.1 := by
  unfold updateTowersLoop
  exact @foldl_rel Tower (List Tower × ℤ × List Bullet × ℕ) NRel
    (fun x y => List.Forall₂ NRel x.1 y.1 ∧ x.2.1 = y.2.1 ∧ x.2.2.1 = y.2.2.1)
    (towersLoopStep ops n1 dt e pf) (towersLoopStep ops n2 dt e pf)
    (fun acc1 acc2 a b hacc hab => towersLoopStep_rel ops n1 n2 dt e pf hacc hab)
    l1 l2 h ([], dc0, bs0, i1) ([], dc0, bs0, i2) ⟨List.Forall₂.nil, rfl, rfl⟩

theorem SimRel_refl (s : SimSt) : SimRel s s :=
  ⟨rfl, rfl, rfl, rfl, rfl, forall2_NRel_refl s.towers, rfl, rfl⟩

theorem escalationPhase_rel {s1 s2 : SimSt} (h : SimRel s1 s2) :
    SimRel (escalationPhase s1) (escalationPhase s2) := by
  obtain ⟨he, hlce, hgma, hgmt, hdc, hts, hbs, hpr⟩ := h
  unfold escalationPhase
  rw [he, hlce, hpr]
  by_cases hcond : 3 ≤ s2.simElapsed - s2.lastCannonEscalation
  · rw [if_pos hcond, if_pos hcond]
    have hesc := escalateTowers_rel s2.simElapsed hts s2.prng
    exact ⟨rfl, rfl, hgma, hgmt, hdc, hesc.1, hbs, hesc.2⟩
  · rw [if_neg hcond, if_neg hcond]
    exact ⟨he, hlce, hgma, hgmt, hdc, hts, hbs, hpr⟩

theorem missileActivatePhase_rel (strt : ℚ) {s1 s2 : SimSt} (h : SimRel s1 s2) :
    SimRel (missileActivatePhase strt s1) (missileActivatePhase strt s2) := by
  obtain ⟨he, hlce, hgma, hgmt, hdc, hts, hbs, hpr⟩ := h
  unfold missileActivatePhase
  rw [he, hgma]
  by_cases hcond : 10 ≤ s2.simElapsed - strt ∧ s2.guidedMissileActive = false
  · rw [if_pos hcond, if_pos hcond]
    exact ⟨rfl, hlce, rfl, rfl, hdc, hts, hbs, hpr⟩
  · rw [if_neg hcond, if_neg hcond]
    exact ⟨he, hlce, hgma, hgmt, hdc, hts, hbs, hpr⟩

theorem volleyPhase_rel (ops : MathOps) (dt : ℚ) {s1 s2 : SimSt} (h : SimRel s1 s2) :
    SimRel (volleyPhase ops dt s1) (volleyPhase ops dt s2) := by
  obtain ⟨he, hlce, hgma, hgmt, hdc, hts, hbs, hpr⟩ := h
  unfold volleyPhase
  rw [hgma, hgmt, hpr, hbs]
  by_cases hcond : s2.guidedMissileActive
  · rw [if_pos hcond, if_pos hcond]
    dsimp only
    by_cases h2 : s2.guidedMissileTimer - dt ≤ 0
    · rw [if_pos h2, if_pos h2]
      have hv := volleyFire_rel ops hts s2.prng s2.bullets
      rw [hv]
      exact ⟨he, hlce, rfl, rfl, hdc, hts, rfl, rfl⟩
    · rw [if_neg h2, if_neg h2]
      exact ⟨he, hlce, rfl, rfl, hdc, hts, rfl, rfl⟩
  · rw [if_neg hcond, if_neg hcond]
    exact ⟨he, hlce, hgma, hgmt, hdc, hts, hbs, hpr⟩

theorem towersPhase_rel (ops : MathOps) (n1 n2 : ℕ → ℚ) (dt : ℚ) (pf : Bool)
    {s1 s2 : SimSt} (h : SimRel s1 s2) :
    SimRel (towersPhase ops n1 dt pf s1) (towersPhase ops n2 dt pf s2) := by
  obtain ⟨he, hlce, hgma, hgmt, hdc, hts, hbs, hpr⟩ := h
  unfold towersPhase
  rw [he, hdc, hbs]
  have hu := updateTowersLoop_rel ops n1 n2 dt s2.simElapsed pf hts s2.deathCounter
    s2.bullets s1.noiseIdx s2.noiseIdx
  exact ⟨rfl, hlce, hgma, hgmt, hu.2.1, hu.1, hu.2.2, hpr⟩

theorem bulletsPhase_rel (ops : MathOps) (dt cw chh : ℚ) {s1 s2 : SimSt}
    (h : SimRel s1 s2) : SimRel (bulletsPhase ops dt cw chh s1) (bulletsPhase ops dt cw chh s2) := by
  obtain ⟨he, hlce, hgma, hgmt, hdc, hts, hbs, hpr⟩ := h
  unfold bulletsPhase
  rw [hbs, hdc]
  have hb := bulletsPhaseL_rel ops dt cw chh s2.bullets hts s2.deathCounter
  exact ⟨he, hlce, hgma, hgmt, hb.2.2, hb.2.1, hb.1, hpr⟩

theorem tickCore_rel {ops : MathOps} {n1 n2 : ℕ → ℚ} {dt cw chh strt : ℚ} (pf : Bool)
    {s1 s2 : SimSt} (h : SimRel s1 s2) :
    SimRel (tickCore ⟨ops, n1, dt, cw, chh, strt⟩ pf s1)
      (tickCore ⟨ops, n2, dt, cw, chh, strt⟩ pf s2) :=
  bulletsPhase_rel ops dt cw chh
    (towersPhase_rel ops n1 n2 dt pf
      (volleyPhase_rel ops dt
        (missileActivatePhase_rel strt
          (escalationPhase_rel h))))

theorem simBump_rel (dt : ℚ) {s1 s2 : SimSt} (h : SimRel s1 s2) :
    SimRel (simBump dt s1) (simBump dt s2) := by
  obtain ⟨he, hlce, hgma, hgmt, hdc, hts, hbs, hpr⟩ := h
  exact ⟨congrArg (fun q => q + dt) he, hlce, hgma, hgmt, hdc, hts, hbs, hpr⟩

theorem simLoop_rel {ops : MathOps} {n1 n2 : ℕ → ℚ} {dt cw chh strt : ℚ} :
    ∀ (fuel : ℕ) {s1 s2 : SimSt}, SimRel s1 s2 →
      simLoop ⟨ops, n1, dt, cw, chh, strt⟩ fuel s1 =
        simLoop ⟨ops, n2, dt, cw, chh, strt⟩ fuel s2 := by
  intro fuel
  induction fuel with
  | zero => intro s1 s2 h; rfl
  | succ m ih =>
    intro s1 s2 h
    have htick := @tickCore_rel ops n1 n2 dt cw chh strt true s1 s2 h
    simp only [simLoop]
    rw [checkWinner_rel htick.2.2.2.2.2.1]
    cases checkWinner (tickCore ⟨ops, n2, dt, cw, chh, strt⟩ true s2).towers with
    | some w => rfl
    | none => exact ih (simBump_rel dt htick)

theorem simPre_rel {ops : MathOps} {n1 n2 : ℕ → ℚ} {dt cw chh strt : ℚ}
    {s1 s2 : SimSt} (h : SimRel s1 s2) :
    ∀ k, SimRel (simPre ⟨ops, n1, dt, cw, chh, strt⟩ s1 k)
      (simPre ⟨ops, n2, dt, cw, chh, strt⟩ s2 k) := by
  intro k
  induction k with
  | zero => exact h
  | succ m ih => exact simBump_rel dt (tickCore_rel true ih)

theorem decisionAt_rel {ops : MathOps} {n1 n2 : ℕ → ℚ} {dt cw chh strt : ℚ}
    {s1 s2 : SimSt} (h : SimRel s1 s2) (k : ℕ) :
    decisionAt ⟨ops, n1, dt, cw, chh, strt⟩ s1 k =
      decisionAt ⟨ops, n2, dt, cw, chh, strt⟩ s2 k :=
  checkWinner_rel (tickCore_rel true (simPre_rel h k)).2.2.2.2.2.1

theorem firstDecisionTick_rel {ops : MathOps} {n1 n2 : ℕ → ℚ} {dt cw chh strt : ℚ}
    {s1 s2 : SimSt} (h : SimRel s1 s2) :
    firstDecisionTick ⟨ops, n1, dt, cw, chh, strt⟩ s1 =
      firstDecisionTick ⟨ops, n2, dt, cw, chh, strt⟩ s2 := by
  unfold firstDecisionTick
  congr 1
  funext k
  rw [decisionAt_rel h k]

/-- C2: for a fixed snapshot list, seed, canvas dimensions and start time,
the headless simulation outcome is independent of the unseeded Math.random
stream used for hit-shake offsets inside Tower.update: under any two noise
oracles runHeadlessSim returns the same winner, the first deciding tick is
the same, and at every tick every combatant agrees on id, health, position
and life flag, and the bullet lists are identical. -/
theorem c2_determinism (ops : MathOps) (n1 n2 : ℕ → ℚ)
    (snapshots : List TowerSnapshot) (seed : ℤ) (cw chh strt : ℚ) :
    runHeadlessSim ops n1 snapshots seed cw chh strt =
      runHeadlessSim ops n2 snapshots seed cw chh strt ∧
    firstDecisionTick ⟨ops, n1, 1 / 60, cw, chh, strt⟩ (initSim snapshots seed strt) =
      firstDecisionTick ⟨ops, n2, 1 / 60, cw, chh, strt⟩ (initSim snapshots seed strt) ∧
    ∀ k : ℕ,
      (simPre ⟨ops, n1, 1 / 60, cw, chh, strt⟩ (initSim snapshots seed strt) k).towers.map
          towerObs =
        (simPre ⟨ops, n2, 1 / 60, cw, chh, strt⟩ (initSim snapshots seed strt) k).towers.map
          towerObs ∧
      (simPre ⟨ops, n1, 1 / 60, cw, chh, strt⟩ (initSim snapshots seed strt) k).bullets =
        (simPre ⟨ops, n2, 1 / 60, cw, chh, strt⟩ (initSim snapshots seed strt) k).bullets := by
  refine ⟨?_, ?_, ?_⟩
  · unfold runHeadlessSim
    by_cases hlen : snapshots.length ≤ 1
    · rw [if_pos hlen, if_pos hlen]
    · rw [if_neg hlen, if_neg hlen]
      exact simLoop_rel maxTicks (SimRel_refl _)
  · exact firstDecisionTick_rel (SimRel_refl _)
  · intro k
    have hk := @simPre_rel ops n1 n2 (1 / 60) cw chh strt _ _
      (SimRel_refl (initSim snapshots seed strt)) k
    exact ⟨map_eq_of_forall2 (fun a b hab => towerObs_rel hab) hk.2.2.2.2.2.1,
      hk.2.2.2.2.2.2.1⟩

theorem battle_bridge (ops : MathOps) (dt : ℚ) {g : GameSt} (hst : g.state = GState.BATTLE) :
    toSim (liveBattleBlock ops dt g) =
      volleyPhase ops dt (missileActivatePhase g.battleStartTime
        (escalationPhase (toSim g))) := by
  unfold liveBattleBlock escalationPhase missileActivatePhase volleyPhase
  rw [if_pos hst]
  dsimp only [toSim]
  by_cases hA : 3 ≤ g.elapsed - g.lastCannonEscalation
  · rw [if_pos hA, if_pos hA]
    try dsimp only
    by_cases hB : 10 ≤ g.elapsed - g.battleStartTime ∧ g.guidedMissileActive = false
    · rw [if_pos hB, if_pos hB]
      try dsimp only
      rw [if_pos rfl, if_pos rfl]
      try dsimp only
      by_cases hC : (0 : ℚ) - dt ≤ 0
      · rw [if_pos hC, if_pos hC]
        try rfl
      · rw [if_neg hC, if_neg hC]
        try rfl
    · rw [if_neg hB, if_neg hB]
      try dsimp only
      by_cases hD : g.guidedMissileActive = true
      · rw [if_pos hD, if_pos hD]
        try dsimp only
        by_cases hE : g.guidedMissileTimer - dt ≤ 0
        · rw [if_pos hE, if_pos hE]
          try rfl
        · rw [if_neg hE, if_neg hE]
          try rfl
      · rw [if_neg hD, if_neg hD]
        try rfl
  · rw [if_neg hA, if_neg hA]
    by_cases hB : 10 ≤ g.elapsed - g.battleStartTime ∧ g.guidedMissileActive = false
    · rw [if_pos hB, if_pos hB]
      try dsimp only
      rw [if_pos rfl, if_pos rfl]
      try dsimp only
      by_cases hC : (0 : ℚ) - dt ≤ 0
      · rw [if_pos hC, if_pos hC]
        try rfl
      · rw [if_neg hC, if_neg hC]
        try rfl
    · rw [if_neg hB, if_neg hB]
      by_cases hD : g.guidedMissileActive = true
      · rw [if_pos hD, if_pos hD]
        try dsimp only
        by_cases hE : g.guidedMissileTimer - dt ≤ 0
        · rw [if_pos hE, if_pos hE]
          try rfl
        · rw [if_neg hE, if_neg hE]
          try rfl
      · rw [if_neg hD, if_neg hD]
        try rfl

theorem towers_bridge (ops : MathOps) (nz : ℕ → ℚ) (dt : ℚ) {g : GameSt}
    (hst : g.state = GState.BATTLE) :
    toSim (liveTowersBlock ops nz dt g) = towersPhase ops nz dt true (toSim g) := by
  unfold liveTowersBlock towersPhase
  rw [hst]
  rfl

theorem bullets_bridge (ops : MathOps) (dt : ℚ) (g : GameSt) :
    toSim (liveBulletsBlock ops dt g) = bulletsPhase ops dt g.width g.height (toSim g) := rfl

theorem bump_bridge (dt : ℚ) (g : GameSt) : toSim (liveBump dt g) = simBump dt (toSim g) := rfl

theorem liveBattleBlock_pres (ops : MathOps) (dt : ℚ) (g : GameSt) :
    (liveBattleBlock ops dt g).state = g.state ∧
    (liveBattleBlock ops dt g).width = g.width ∧
    (liveBattleBlock ops dt g).height = g.height ∧
    (liveBattleBlock ops dt g).battleStartTime = g.battleStartTime := by
  unfold liveBattleBlock
  dsimp only
  split_ifs <;> exact ⟨rfl, rfl, rfl, rfl⟩

theorem liveTowersBlock_pres (ops : MathOps) (nz : ℕ → ℚ) (dt : ℚ) (g : GameSt) :
    (liveTowersBlock ops nz dt g).state = g.state ∧
    (liveTowersBlock ops nz dt g).width = g.width ∧
    (liveTowersBlock ops nz dt g).height = g.height ∧
    (liveTowersBlock ops nz dt g).battleStartTime = g.battleStartTime :=
  ⟨rfl, rfl, rfl, rfl⟩

theorem liveBulletsBlock_pres (ops : MathOps) (dt : ℚ) (g : GameSt) :
    (liveBulletsBlock ops dt g).state = g.state ∧
    (liveBulletsBlock ops dt g).width = g.width ∧
    (liveBulletsBlock ops dt g).height = g.height ∧
    (liveBulletsBlock ops dt g).battleStartTime = g.battleStartTime :=
  ⟨rfl, rfl, rfl, rfl⟩

theorem liveWinnerCheck_none {g : GameSt} (h : checkWinner g.towers = none) :
    liveWinnerCheck g = g := by
  unfold liveWinnerCheck
  by_cases hst : g.state = GState.BATTLE
  · rw [if_pos hst, h]
  · rw [if_neg hst]

theorem liveWinnerCheck_some {g : GameSt} {w : ℤ} (hst : g.state = GState.BATTLE)
    (h : checkWinner g.towers = some w) : (liveWinnerCheck g).state = GState.WINNER := by
  unfold liveWinnerCheck
  rw [if_pos hst, h]

theorem forall2_map_self {α β : Type} {R : α → β → Prop} {f : α → β} :
    ∀ {l : List α}, (∀ a ∈ l, R a (f a)) → List.Forall₂ R l (l.map f) := by
  intro l
  induction l with
  | nil => intro h; exact List.Forall₂.nil
  | cons a tl ih =>
    intro h
    exact List.Forall₂.cons (h a (List.mem_cons_self a tl))
      (ih fun b hb => h b (List.mem_cons_of_mem a hb))

theorem initTowers_snapshotsOf (e : ℚ) (l : List Tower) :
    initTowers (snapshotsOf l) e =
      l.map (fun t => { mkTower t.id t.x t.y t.color with spawnTime := e, scale := 1 }) := by
  unfold initTowers snapshotsOf
  rw [List.map_map]
  rfl

theorem startBattleWithSeed_initSim (seed : ℤ) {g : GameSt} (hbul : g.bullets = [])
    (hfresh : ∀ t ∈ g.towers, FreshTower ⟨t.id, t.x, t.y, t.color⟩ t) :
    SimRel (toSim (startBattleWithSeed seed g))
      (initSim (snapshotsOf g.towers) seed g.elapsed) := by
  unfold startBattleWithSeed startBattleCommon initSim startBattleAll
  dsimp only [toSim]
  rw [initTowers_snapshotsOf]
  have hfold := @foldl_rel Tower (List Tower × ℕ)
    (fun t u => NRel { t with scale := 1 } u)
    (fun x y => List.Forall₂ NRel x.1 y.1 ∧ x.2 = y.2)
    (liveStartStep g.elapsed) (startBattleStep g.elapsed)
    (fun acc1 acc2 a b hacc hab => by
      unfold liveStartStep startBattleStep
      have hsb := startBattle_rel hab g.elapsed acc2.2
      dsimp only
      rw [hacc.2]
      exact ⟨forall2_append hacc.1 (List.Forall₂.cons hsb.1 List.Forall₂.nil), hsb.2⟩)
    g.towers
    (g.towers.map fun t =>
      { mkTower t.id t.x t.y t.color with spawnTime := g.elapsed, scale := 1 })
    (forall2_map_self (fun t ht => by
      obtain ⟨f1, f2, f3, f4, f5, f6, f7, f8, f9, f10, f11, f12, f13, f14, f15⟩ :=
        hfresh t ht
      exact @NRel_of_fields { t with scale := 1 }
        { mkTower t.id t.x t.y t.color with spawnTime := g.elapsed, scale := 1 }
        rfl rfl rfl rfl f5 f6 f7 rfl f8 f9 f10 f11 f12 f13 f14 f15
        (fun h => absurd h (by norm_num))))
    ([], createPRNG seed) ([], createPRNG seed) ⟨List.Forall₂.nil, rfl⟩
  exact ⟨rfl, rfl, rfl, rfl, rfl, hfold.1, hbul, hfold.2⟩

theorem liveBump_pres (dt : ℚ) (g : GameSt) :
    (liveBump dt g).state = g.state ∧ (liveBump dt g).width = g.width ∧
    (liveBump dt g).height = g.height ∧
    (liveBump dt g).battleStartTime = g.battleStartTime :=
  ⟨rfl, rfl, rfl, rfl⟩

theorem live_sim_step (ops : MathOps) (nL nH : ℕ → ℚ) (dt cw chh strt : ℚ)
    {gk : GameSt} {s : SimSt} (hst : gk.state = GState.BATTLE) (hW : gk.width = cw)
    (hH : gk.height = chh) (hB : gk.battleStartTime = strt)
    (hSim : SimRel (toSim gk) s) :
    SimRel (toSim (liveBulletsBlock ops dt (liveTowersBlock ops nL dt
      (liveBattleBlock ops dt gk)))) (tickCore ⟨ops, nH, dt, cw, chh, strt⟩ true s) := by
  have h3 := bullets_bridge ops dt (liveTowersBlock ops nL dt (liveBattleBlock ops dt gk))
  have hstT : (liveBattleBlock ops dt gk).state = GState.BATTLE := by
    rw [(liveBattleBlock_pres ops dt gk).1]; exact hst
  have h2 := towers_bridge ops nL dt hstT
  have h1 := battle_bridge ops dt hst
  rw [h3]
  rw [(liveTowersBlock_pres ops nL dt _).2.1, (liveBattleBlock_pres ops dt _).2.1, hW]
  rw [(liveTowersBlock_pres ops nL dt _).2.2.1, (liveBattleBlock_pres ops dt _).2.2.1, hH]
  rw [h2, h1, hB]
  exact bulletsPhase_rel ops dt cw chh (towersPhase_rel ops nL nH dt true
    (volleyPhase_rel ops dt (missileActivatePhase_rel strt (escalationPhase_rel hSim))))

theorem c1_invariant (ops : MathOps) (nL nH : ℕ → ℚ) (dt : ℚ) (seed : ℤ) {g : GameSt}
    (hbul : g.bullets = [])
    (hfresh : ∀ t ∈ g.towers, FreshTower ⟨t.id, t.x, t.y, t.color⟩ t) :
    ∀ k, (∀ j, j < k →
        decisionAt ⟨ops, nH, dt, g.width, g.height, g.elapsed⟩
          (initSim (snapshotsOf g.towers) seed g.elapsed) j = none) →
      (livePre ops nL dt (startBattleWithSeed seed g) k).state = GState.BATTLE ∧
      (livePre ops nL dt (startBattleWithSeed seed g) k).width = g.width ∧
      (livePre ops nL dt (startBattleWithSeed seed g) k).height = g.height ∧
      (livePre ops nL dt (startBattleWithSeed seed g) k).battleStartTime = g.elapsed ∧
      SimRel (toSim (livePre ops nL dt (startBattleWithSeed seed g) k))
        (simPre ⟨ops, nH, dt, g.width, g.height, g.elapsed⟩
          (initSim (snapshotsOf g.towers) seed g.elapsed) k) := by
  intro k
  induction k with
  | zero =>
    intro hn
    exact ⟨rfl, rfl, rfl, rfl, startBattleWithSeed_initSim seed hbul hfresh⟩
  | succ m ih =>
    intro hnone
    obtain ⟨hSt, hW, hH, hB, hSim⟩ := ih (fun j hj => hnone j (Nat.lt_succ_of_lt hj))
    have hstep := live_sim_step ops nL nH dt g.width g.height g.elapsed hSt hW hH hB hSim
    have hd : decisionAt ⟨ops, nH, dt, g.width, g.height, g.elapsed⟩
        (initSim (snapshotsOf g.towers) seed g.elapsed) m = none :=
      hnone m (Nat.lt_succ_self m)
    have hcw : checkWinner (liveBulletsBlock ops dt (liveTowersBlock ops nL dt
        (liveBattleBlock ops dt
          (livePre ops nL dt (startBattleWithSeed seed g) m)))).towers = none :=
      (checkWinner_rel hstep.2.2.2.2.2.1).trans hd
    have hlive : livePre ops nL dt (startBattleWithSeed seed g) (m + 1) =
        liveBump dt (liveBulletsBlock ops dt (liveTowersBlock ops nL dt
          (liveBattleBlock ops dt
            (livePre ops nL dt (startBattleWithSeed seed g) m)))) := by
      have h0 : livePre ops nL dt (startBattleWithSeed seed g) (m + 1) =
          liveBump dt (liveBody ops nL dt
            (livePre ops nL dt (startBattleWithSeed seed g) m)) := rfl
      rw [h0]
      unfold liveBody
      rw [liveWinnerCheck_none hcw]
    rw [hlive]
    refine ⟨?_, ?_, ?_, ?_, ?_⟩
    · rw [(liveBump_pres dt _).1, (liveBulletsBlock_pres ops dt _).1,
        (liveTowersBlock_pres ops nL dt _).1, (liveBattleBlock_pres ops dt _).1]
      exact hSt
    · rw [(liveBump_pres dt _).2.1, (liveBulletsBlock_pres ops dt _).2.1,
        (liveTowersBlock_pres ops nL dt _).2.1, (liveBattleBlock_pres ops dt _).2.1]
      exact hW
    · rw [(liveBump_pres dt _).2.2.1, (liveBulletsBlock_pres ops dt _).2.2.1,
        (liveTowersBlock_pres ops nL dt _).2.2.1, (liveBattleBlock_pres ops dt _).2.2.1]
      exact hH
    · rw [(liveBump_pres dt _).2.2.2, (liveBulletsBlock_pres ops dt _).2.2.2,
        (liveTowersBlock_pres ops nL dt _).2.2.2, (liveBattleBlock_pres ops dt _).2.2.2]
      exact hB
    · exact simBump_rel dt hstep

theorem find?_range_first {p : ℕ → Bool} : ∀ {n k : ℕ}, k < n → p k = true →
    (∀ j, j < k → p j = false) → (List.range n).find? p = some k := by
  intro n
  induction n with
  | zero => intro k hk; exact absurd hk (Nat.not_lt_zero k)
  | succ m ih =>
    intro k hk hp hmin
    rw [List.range_succ, List.find?_append]
    by_cases hkm : k < m
    · rw [ih hkm hp hmin]
      rfl
    · have hkm2 : k = m := by omega
      subst hkm2
      have hnone : (List.range k).find? p = none :=
        List.find?_eq_none.mpr (fun j hj => by
          rw [hmin j (List.mem_range.mp hj)]
          exact Bool.false_ne_true)
      rw [hnone]
      show List.find? p [k] = some k
      rw [List.find?_cons_of_pos _ hp]

/-- C1: replay identity.  For a snapshot of at least two freshly placed
combatants and any seed, driving the live game from the winning branch of
startBattle through Game.update at dt = 1/60 with no presence events
matches the headless probe on the same snapshot and seed tick for tick:
up to the first deciding tick the two loops produce the same winner
decision, the same combatant observations (id, health, position, life) and
the same bullet lists, and at the deciding tick (within the 3600-tick
budget) runHeadlessSim returns exactly the winner the live loop crowns as
it enters the WINNER state.  The live and headless runs may even consume
different unseeded noise streams. -/
theorem c1_replay_identity (ops : MathOps) (nL nH : ℕ → ℚ) (seed : ℤ) (g : GameSt)
    (hlen : 2 ≤ g.towers.length) (hbul : g.bullets = [])
    (hfresh : ∀ t ∈ g.towers, FreshTower ⟨t.id, t.x, t.y, t.color⟩ t) (k : ℕ)
    (hnone : ∀ j, j < k →
      decisionAt ⟨ops, nH, 1 / 60, g.width, g.height, g.elapsed⟩
        (initSim (snapshotsOf g.towers) seed g.elapsed) j = none) :
    liveDecisionAt ops nL (1 / 60) (startBattleWithSeed seed g) k =
      decisionAt ⟨ops, nH, 1 / 60, g.width, g.height, g.elapsed⟩
        (initSim (snapshotsOf g.towers) seed g.elapsed) k ∧
    (livePre ops nL (1 / 60) (startBattleWithSeed seed g) k).towers.map towerObs =
      (simPre ⟨ops, nH, 1 / 60, g.width, g.height, g.elapsed⟩
        (initSim (snapshotsOf g.towers) seed g.elapsed) k).towers.map towerObs ∧
    (livePre ops nL (1 / 60) (startBattleWithSeed seed g) k).bullets =
      (simPre ⟨ops, nH, 1 / 60, g.width, g.height, g.elapsed⟩
        (initSim (snapshotsOf g.towers) seed g.elapsed) k).bullets ∧
    ∀ w, decisionAt ⟨ops, nH, 1 / 60, g.width, g.height, g.elapsed⟩
        (initSim (snapshotsOf g.towers) seed g.elapsed) k = some w → k < maxTicks →
      runHeadlessSim ops nH (snapshotsOf g.towers) seed g.width g.height g.elapsed = w ∧
      (liveBody ops nL (1 / 60)
        (livePre ops nL (1 / 60) (startBattleWithSeed seed g) k)).state =
        GState.WINNER := by
  obtain ⟨hSt, hW, hH, hB, hSim⟩ :=
    c1_invariant ops nL nH (1 / 60) seed hbul hfresh k hnone
  have hstep := live_sim_step ops nL nH (1 / 60) g.width g.height g.elapsed hSt hW hH hB hSim
  have hdec : liveDecisionAt ops nL (1 / 60) (startBattleWithSeed seed g) k =
      decisionAt ⟨ops, nH, 1 / 60, g.width, g.height, g.elapsed⟩
        (initSim (snapshotsOf g.towers) seed g.elapsed) k :=
    checkWinner_rel hstep.2.2.2.2.2.1
  refine ⟨hdec, map_eq_of_forall2 (fun a b hab => towerObs_rel hab) hSim.2.2.2.2.2.1,
    hSim.2.2.2.2.2.2.1, ?_⟩
  intro w hw hk
  constructor
  · have hfirst : (List.range maxTicks).find?
        (fun j => (decisionAt ⟨ops, nH, 1 / 60, g.width, g.height, g.elapsed⟩
          (initSim (snapshotsOf g.towers) seed g.elapsed) j).isSome) = some k :=
      find?_range_first hk (by rw [hw]; rfl) (fun j hj => by rw [hnone j hj]; rfl)
    have hlen2 : ¬ (snapshotsOf g.towers).length ≤ 1 := by
      unfold snapshotsOf
      rw [List.length_map]
      omega
    unfold runHeadlessSim
    rw [if_neg hlen2]
    rw [simLoop_char (⟨ops, nH, 1 / 60, g.width, g.height, g.elapsed⟩ : SimCtx) maxTicks
      (initSim (snapshotsOf g.towers) seed g.elapsed)]
    rw [hfirst]
    show (decisionAt ⟨ops, nH, 1 / 60, g.width, g.height, g.elapsed⟩
      (initSim (snapshotsOf g.towers) seed g.elapsed) k).getD (-1) = w
    rw [hw]
    rfl
  · have hst3 : (liveBulletsBlock ops (1 / 60) (liveTowersBlock ops nL (1 / 60)
        (liveBattleBlock ops (1 / 60)
          (livePre ops nL (1 / 60) (startBattleWithSeed seed g) k)))).state =
        GState.BATTLE := by
      rw [(liveBulletsBlock_pres ops (1 / 60) _).1, (liveTowersBlock_pres ops nL (1 / 60) _).1,
        (liveBattleBlock_pres ops (1 / 60) _).1]
      exact hSt
    exact liveWinnerCheck_some hst3 (hdec.trans hw)

/-- Closed witness for C1: the freshly placed two-tower game, seed 0,
tick 0. -/
theorem c1_replay_identity_witness :
    2 ≤ gW.towers.length ∧ gW.bullets = [] ∧
    (∀ t ∈ gW.towers, FreshTower ⟨t.id, t.x, t.y, t.color⟩ t) ∧
    (liveDecisionAt ops0 noise0 (1 / 60) (startBattleWithSeed 0 gW) 0 =
      decisionAt ⟨ops0, noise0, 1 / 60, gW.width, gW.height, gW.elapsed⟩
        (initSim (snapshotsOf gW.towers) 0 gW.elapsed) 0 ∧
    (livePre ops0 noise0 (1 / 60) (startBattleWithSeed 0 gW) 0).towers.map towerObs =
      (simPre ⟨ops0, noise0, 1 / 60, gW.width, gW.height, gW.elapsed⟩
        (initSim (snapshotsOf gW.towers) 0 gW.elapsed) 0).towers.map towerObs ∧
    (livePre ops0 noise0 (1 / 60) (startBattleWithSeed 0 gW) 0).bullets =
      (simPre ⟨ops0, noise0, 1 / 60, gW.width, gW.height, gW.elapsed⟩
        (initSim (snapshotsOf gW.towers) 0 gW.elapsed) 0).bullets ∧
    ∀ w, decisionAt ⟨ops0, noise0, 1 / 60, gW.width, gW.height, gW.elapsed⟩
        (initSim (snapshotsOf gW.towers) 0 gW.elapsed) 0 = some w → 0 < maxTicks →
      runHeadlessSim ops0 noise0 (snapshotsOf gW.towers) 0 gW.width gW.height gW.elapsed = w ∧
      (liveBody ops0 noise0 (1 / 60)
        (livePre ops0 noise0 (1 / 60) (startBattleWithSeed 0 gW) 0)).state =
        GState.WINNER) :=
  ⟨by decide, rfl,
    by
      intro t ht
      fin_cases ht <;>
        exact ⟨rfl, rfl, rfl, rfl, rfl, rfl, rfl, rfl, rfl, rfl, rfl, rfl, rfl, rfl, rfl⟩,
    c1_replay_identity ops0 noise0 noise0 0 gW (by decide) rfl
      (by
        intro t ht
        fin_cases ht <;>
          exact ⟨rfl, rfl, rfl, rfl, rfl, rfl, rfl, rfl, rfl, rfl, rfl, rfl, rfl, rfl, rfl⟩)
      0 (fun j hj => absurd hj (Nat.not_lt_zero j))⟩

end Chwazam
